import Mathlib

/-!
Verification of the checkpoint subsystem of gemini-cli
(`packages/core/src/config/storage.ts` and
`packages/core/src/services/gitService.ts`).

The TypeScript source is shallowly embedded:

* `Storage` (storage.ts) is a pure path calculator; its methods become pure
  Lean functions over an `OsEnv` record standing for `os.homedir()`,
  `os.tmpdir()` and `process.cwd()`.
* The SHA-256 digest used by `Storage.getFilePathHash`
  (`crypto.createHash('sha256')`) is implemented in full over `Nat`
  (words are kept reduced modulo `2 ^ 32`).
* `GitService` (gitService.ts) is embedded as functions from a `World`
  (files, directories, shadow repositories) to an `Outcome` carrying the
  result (`Except String`, errors are the thrown `Error` messages of the
  source), the updated world, and a trace of the filesystem / git effects
  performed, in order.
* The external git engine (`simple-git`) is modelled at its interface
  boundary: a `GitHandle` records the base directory and the
  `GIT_DIR` / `GIT_WORK_TREE` / `HOME` / `XDG_CONFIG_HOME` overrides the
  source passes via `.env`, and each git operation is a function on
  `World`.  Which configuration git consults for a commit (the user global
  config read from `$HOME`, or the dedicated config inside the history
  directory when `HOME` is overridden to it) is recorded on every commit.
-/

/-! ## String primitives

Character-list implementations of the string operations the sources use
(`split`, `startsWith`, `drop`, `trim`, `intercalate`), so that every
definition evaluates by kernel reduction. -/

/-- Split a character list at a separator character. -/
def splitCharsAux (sep : Char) : List Char → List Char → List String
  | [], acc => [String.mk acc.reverse]
  | c :: rest, acc =>
      if c = sep then String.mk acc.reverse :: splitCharsAux sep rest []
      else splitCharsAux sep rest (c :: acc)

/-- Model of `s.split(sep)` for a one-character separator (the only shape the
sources use: `'/'` and newline). -/
def splitOnChar (sep : Char) (s : String) : List String :=
  splitCharsAux sep s.data []

/-- Is the first list an initial segment of the second. -/
def listLeads : List Char → List Char → Bool
  | [], _ => true
  | _ :: _, [] => false
  | a :: as, b :: bs => a = b && listLeads as bs

/-- Model of `s.startsWith(pre)`. -/
def strStartsWith (s pre : String) : Bool := listLeads pre.data s.data

/-- Drop the first `n` characters of a string. -/
def strDrop (s : String) (n : Nat) : String := String.mk (s.data.drop n)

/-- ASCII whitespace (all the incidental whitespace git output carries). -/
def isWS (c : Char) : Bool := c = ' ' || c = '\n' || c = '\t' || c = '\r'

/-- Model of `s.trim()`: strip leading and trailing whitespace. -/
def strTrim (s : String) : String :=
  String.mk (((s.data.dropWhile isWS).reverse.dropWhile isWS).reverse)

/-- Join a list of strings with a separator between elements. -/
def joinSep (sep : String) : List String → String
  | [] => ""
  | [x] => x
  | x :: xs => x ++ sep ++ joinSep sep xs

/-! ## Path model (node:path, POSIX) -/

/-- Join of two path segments as `path.join` computes it for the dot-free
segments this codebase joins (an empty part is dropped, otherwise the parts
are separated by one slash). -/
def pathJoin (a b : String) : String :=
  if a = "" then b else if b = "" then a else a ++ "/" ++ b

/-- Segments of a POSIX path, empty segments dropped. -/
def splitPath (s : String) : List String :=
  (splitOnChar '/' s).filter (fun seg => seg ≠ "")

/-- POSIX normalisation of the segment list of an absolute path: `.` is
dropped and `..` removes the previous segment (at the root it is a no-op). -/
def normSegs (segs : List String) : List String :=
  segs.foldl
    (fun acc seg =>
      if seg = "." then acc
      else if seg = ".." then acc.dropLast
      else acc ++ [seg]) []

/-- Model of `path.resolve(p)` against the current working directory: an
already-absolute `p` is normalised, a relative `p` is appended to `cwd`
first.  (`path.resolve` never consults the filesystem, so it does *not*
resolve symlinks.) -/
def pathResolve (cwd p : String) : String :=
  let abs := if strStartsWith p "/" then p else cwd ++ "/" ++ p
  "/" ++ joinSep "/" (normSegs (splitPath abs))

/-! ## SHA-256 over `Nat` (node:crypto `createHash('sha256')`) -/

/-- UTF-8 bytes of one character, as natural numbers `< 256`. -/
def utf8Bytes (c : Char) : List Nat :=
  let n := c.toNat
  if n < 128 then [n]
  else if n < 2048 then
    [192 ||| (n >>> 6), 128 ||| (n &&& 63)]
  else if n < 65536 then
    [224 ||| (n >>> 12), 128 ||| ((n >>> 6) &&& 63), 128 ||| (n &&& 63)]
  else
    [240 ||| (n >>> 18), 128 ||| ((n >>> 12) &&& 63),
     128 ||| ((n >>> 6) &&& 63), 128 ||| (n &&& 63)]

/-- UTF-8 encoding of a string (the byte stream `crypto.update` hashes). -/
def strBytes (s : String) : List Nat :=
  s.data.flatMap utf8Bytes

/-- Right rotation of a 32-bit word held in a `Nat`. -/
def rotr32 (n x : Nat) : Nat :=
  ((x >>> n) ||| (x <<< (32 - n))) % 2 ^ 32

/-- 32-bit addition. -/
def add32 (a b : Nat) : Nat := (a + b) % 2 ^ 32

/-- 32-bit complement. -/
def not32 (x : Nat) : Nat := x ^^^ (2 ^ 32 - 1)

/-- The SHA-256 round constants. -/
def shaK : Array Nat := #[
  1116352408, 1899447441, 3049323471, 3921009573, 961987163,
  1508970993, 2453635748, 2870763221, 3624381080, 310598401,
  607225278, 1426881987, 1925078388, 2162078206, 2614888103,
  3248222580, 3835390401, 4022224774, 264347078, 604807628,
  770255983, 1249150122, 1555081692, 1996064986, 2554220882,
  2821834349, 2952996808, 3210313671, 3336571891, 3584528711,
  113926993, 338241895, 666307205, 773529912, 1294757372,
  1396182291, 1695183700, 1986661051, 2177026350, 2456956037,
  2730485921, 2820302411, 3259730800, 3345764771, 3516065817,
  3600352804, 4094571909, 275423344, 430227734, 506948616,
  659060556, 883997877, 958139571, 1322822218, 1537002063,
  1747873779, 1955562222, 2024104815, 2227730452, 2361852424,
  2428436474, 2756734187, 3204031479, 3329325298]

/-- The SHA-256 initial hash state. -/
def shaH0 : List Nat :=
  [1779033703, 3144134277, 1013904242, 2773480762,
   1359893119, 2600822924, 528734635, 1541459225]

/-- Big-endian bytes (`k` of them) of a natural number. -/
def beBytes (k n : Nat) : List Nat :=
  (List.range k).map (fun i => (n >>> (8 * (k - 1 - i))) &&& 255)

/-- SHA-256 message padding: a `0x80` byte, zeros to 56 mod 64, then the
bit length as 8 big-endian bytes. -/
def shaPad (msg : List Nat) : List Nat :=
  let len := msg.length
  let zeros := (119 - len % 64) % 64
  msg ++ [128] ++ List.replicate zeros 0 ++ beBytes 8 (len * 8)

/-- Big-endian 32-bit words from a byte list. -/
def toWords : List Nat → List Nat
  | b0 :: b1 :: b2 :: b3 :: rest =>
      ((b0 <<< 24) ||| (b1 <<< 16) ||| (b2 <<< 8) ||| b3) :: toWords rest
  | _ => []

/-- The extended 64-entry message schedule of one block. -/
def shaSchedule (block : List Nat) : Array Nat :=
  (List.range 48).foldl
    (fun w i =>
      let t := i + 16
      let x15 := w.getD (t - 15) 0
      let x2 := w.getD (t - 2) 0
      let s0 := (rotr32 7 x15) ^^^ (rotr32 18 x15) ^^^ (x15 >>> 3)
      let s1 := (rotr32 17 x2) ^^^ (rotr32 19 x2) ^^^ (x2 >>> 10)
      w.push (add32 (add32 (w.getD (t - 16) 0) s0) (add32 (w.getD (t - 7) 0) s1)))
    block.toArray

/-- The SHA-256 compression function for one 64-byte block. -/
def shaCompress (hs : List Nat) (block : List Nat) : List Nat :=
  let w := shaSchedule (toWords block)
  match hs with
  | [h0, h1, h2, h3, h4, h5, h6, h7] =>
    let st := (List.range 64).foldl
      (fun st i =>
        let (a, b, c, d, e, f, g, hh) := st
        let s1 := (rotr32 6 e) ^^^ (rotr32 11 e) ^^^ (rotr32 25 e)
        let ch := (e &&& f) ^^^ ((not32 e) &&& g)
        let t1 := add32 (add32 hh s1) (add32 ch (add32 (shaK.getD i 0) (w.getD i 0)))
        let s0 := (rotr32 2 a) ^^^ (rotr32 13 a) ^^^ (rotr32 22 a)
        let mj := (a &&& b) ^^^ (a &&& c) ^^^ (b &&& c)
        let t2 := add32 s0 mj
        (add32 t1 t2, a, b, c, add32 d t1, e, f, g))
      (h0, h1, h2, h3, h4, h5, h6, h7)
    let (a, b, c, d, e, f, g, hh) := st
    [add32 h0 a, add32 h1 b, add32 h2 c, add32 h3 d,
     add32 h4 e, add32 h5 f, add32 h6 g, add32 h7 hh]
  | _ => hs

/-- The eight 32-bit state words after hashing all blocks of a byte stream. -/
def sha256Words (msg : List Nat) : List Nat :=
  let padded := shaPad msg
  (List.range (padded.length / 64)).foldl
    (fun hs i => shaCompress hs ((padded.drop (64 * i)).take 64))
    shaH0

/-- A lowercase hexadecimal digit. -/
def hexDigit (n : Nat) : Char :=
  if n < 10 then Char.ofNat (48 + n) else Char.ofNat (87 + n)

/-- Eight lowercase hex characters of one 32-bit word. -/
def wordHex (w : Nat) : String :=
  String.mk ((List.range 8).map (fun i => hexDigit ((w >>> (4 * (7 - i))) &&& 15)))

/-- The SHA-256 digest of a string as the 64-character lowercase hex string
`crypto.createHash('sha256').update(s).digest('hex')` returns. -/
def sha256Hex (s : String) : String :=
  String.join ((sha256Words (strBytes s)).map wordHex)

/-! ## Storage (packages/core/src/config/storage.ts) -/

/-- The operating-system environment `Storage` consults: `os.homedir()`
(empty string models a falsy result), `os.tmpdir()`, and `process.cwd()`
(used by `path.resolve`). -/
structure OsEnv where
  homeDir : String
  tmpDir : String
  cwd : String
deriving DecidableEq

/-- Constant `GEMINI_DIR` of storage.ts. -/
def GEMINI_DIR : String := ".gemini"

/-- Constant `TMP_DIR_NAME` of storage.ts. -/
def TMP_DIR_NAME : String := "tmp"

/-- The `Storage` class: it holds only the constructor argument
`targetDir` (the project root as supplied, stored without any
transformation). -/
structure Storage where
  targetDir : String
deriving DecidableEq

/-- Model of `Storage.getGlobalGeminiDir`: `path.join(os.homedir(), '.gemini')`,
falling back to `path.join(os.tmpdir(), '.gemini')` when no home directory
resolves. -/
def Storage.getGlobalGeminiDir (os : OsEnv) : String :=
  if os.homeDir = "" then pathJoin os.tmpDir ".gemini"
  else pathJoin os.homeDir GEMINI_DIR

/-- Model of `Storage.getProjectRoot`: returns `targetDir` unchanged. -/
def Storage.getProjectRoot (s : Storage) : String := s.targetDir

/-- Model of `Storage.getFilePathHash`: the SHA-256 hex digest of the path string,
exactly as given. -/
def Storage.getFilePathHash (filePath : String) : String := sha256Hex filePath

/-- Model of `Storage.getHistoryDir`:
`path.join(getGlobalGeminiDir(), 'history', getFilePathHash(getProjectRoot()))`
— a pure path computation, no filesystem access. -/
def Storage.getHistoryDir (os : OsEnv) (s : Storage) : String :=
  pathJoin (pathJoin (Storage.getGlobalGeminiDir os) "history")
    (Storage.getFilePathHash s.getProjectRoot)

/-- Model of `Storage.getGlobalTempDir`: `path.join(getGlobalGeminiDir(), 'tmp')`. -/
def Storage.getGlobalTempDir (os : OsEnv) : String :=
  pathJoin (Storage.getGlobalGeminiDir os) TMP_DIR_NAME

/-- Model of `Storage.getProjectTempDir`:
`path.join(getGlobalTempDir(), getFilePathHash(getProjectRoot()))`. -/
def Storage.getProjectTempDir (os : OsEnv) (s : Storage) : String :=
  pathJoin (Storage.getGlobalTempDir os) (Storage.getFilePathHash s.getProjectRoot)

/-! ## Association-list maps (the model of the filesystem and repo tables) -/

/-- Value at a key in an association list. -/
def lookupEntry {α : Type} : List (String × α) → String → Option α
  | [], _ => none
  | p :: rest, k => if p.1 = k then some p.2 else lookupEntry rest k

/-- Set a key in an association list: the first entry with the key is
updated in place, a new key is appended. -/
def setEntry {α : Type} : List (String × α) → String → α → List (String × α)
  | [], k, v => [(k, v)]
  | p :: rest, k, v =>
      if p.1 = k then (k, v) :: rest else p :: setEntry rest k v

/-- Insert a string into a list if absent. -/
def addDir (l : List String) (p : String) : List String :=
  if p ∈ l then l else l ++ [p]

/-! ## The world: files, directories, shadow repositories -/

/-- State of a path in the modelled filesystem: readable content, or a file
whose read fails with a non-ENOENT error (permission problems and the like,
used to exercise the error paths). -/
inductive FileData
  | content : String → FileData
  | unreadable : String → FileData
deriving DecidableEq

/-- Which git configuration a commit was created under: the user global
configuration (git read `$HOME/.gitconfig` from the real, unmodified
environment), or the dedicated `.gitconfig` inside the history directory
(git was invoked with `HOME` / `XDG_CONFIG_HOME` overridden to it). -/
inductive ConfigSource
  | userGlobal
  | historyDirConfig
deriving DecidableEq

/-- One commit of a shadow repository: its id (the model of the opaque
hash), message, the configuration source git consulted when creating it,
and the tree of (path relative to the work tree, content) it snapshots. -/
structure Commit where
  id : String
  message : String
  source : ConfigSource
  tree : List (String × String)
deriving DecidableEq

/-- One shadow repository: branch, staging index, and the commit list in
creation order (`HEAD` is the last). -/
structure ShadowRepo where
  branch : String
  index : List (String × String)
  commits : List Commit
deriving DecidableEq

/-- The world the embedded operations act on: file contents keyed by
absolute path, the set of created directories, and the repositories keyed
by their git metadata directory (the `.git` path). -/
structure World where
  files : List (String × FileData)
  dirs : List String
  repos : List (String × ShadowRepo)
deriving DecidableEq

/-- Outcome of a read: content, ENOENT, or another error. -/
inductive ReadErr
  | enoent
  | other : String → ReadErr
deriving DecidableEq

/-- Model of `fs.readFile`: missing file is ENOENT; an unreadable file reports its
error. -/
def World.readFile (w : World) (p : String) : Except ReadErr String :=
  match lookupEntry w.files p with
  | none => .error .enoent
  | some (.content c) => .ok c
  | some (.unreadable e) => .error (.other e)

/-- Model of `fs.writeFile`: creates or overwrites. -/
def World.writeFile (w : World) (p c : String) : World :=
  { w with files := setEntry w.files p (.content c) }

/-- Model of `fs.mkdir(p, recursive: true)`: creating an existing directory is not
an error and changes nothing. -/
def World.mkdirp (w : World) (p : String) : World :=
  { w with dirs := addDir w.dirs p }

/-- Replace the repository-table entry at a key (plumbing shared by the
embedded git operations). -/
def World.setRepo (w : World) (k : String) (r : ShadowRepo) : World :=
  { w with repos := setEntry w.repos k r }

/-! ## The git engine at its interface boundary (simple-git) -/

/-- A `simple-git` handle: the base directory it was created on and the
`GIT_DIR` / `GIT_WORK_TREE` / `HOME`-and-`XDG_CONFIG_HOME` environment
overrides passed via `.env` (all `none` when `.env` was not called, in
which case git uses the base directory and the ambient environment). -/
structure GitHandle where
  baseDir : String
  gitDirOverride : Option String
  workTreeOverride : Option String
  homeOverride : Option String
deriving DecidableEq

/-- Model of `simpleGit(dir)`: a handle with no environment overrides. -/
def simpleGit (dir : String) : GitHandle := ⟨dir, none, none, none⟩

/-- Model of `.env(GIT_DIR, GIT_WORK_TREE, HOME and XDG_CONFIG_HOME)` as used by
`GitService.shadowGitRepository` (the source sets `HOME` and
`XDG_CONFIG_HOME` to the same directory; one field models both). -/
def GitHandle.withShadowEnv (h : GitHandle) (gitDir workTree home : String) :
    GitHandle :=
  ⟨h.baseDir, some gitDir, some workTree, some home⟩

/-- The metadata directory git operates on: the `GIT_DIR` override, or
`<baseDir>/.git`. -/
def GitHandle.gitDir (h : GitHandle) : String :=
  h.gitDirOverride.getD (pathJoin h.baseDir ".git")

/-- The work tree git operates on: the `GIT_WORK_TREE` override, or the
base directory. -/
def GitHandle.workTree (h : GitHandle) : String :=
  h.workTreeOverride.getD h.baseDir

/-- Which configuration a commit under this handle consults: git reads its
global configuration from `$HOME` / `$XDG_CONFIG_HOME`; only when those
are overridden to the history directory does the dedicated `.gitconfig`
written there take effect, otherwise the user global configuration is
used. -/
def GitHandle.configSource (h : GitHandle) : ConfigSource :=
  if h.homeOverride.isSome then .historyDirConfig else .userGlobal

/-- Commit id of the `n`-th commit of a store (the model of the content
hash: opaque, distinct per commit). -/
def commitName (n : Nat) : String := "commit-" ++ toString n

/-- Model of `repo.checkIsRepo(CheckRepoActions.IS_REPO_ROOT)`: is there a
repository whose root is this handle's directory. -/
def gitCheckIsRepoRoot (h : GitHandle) (w : World) : Bool :=
  (lookupEntry w.repos h.gitDir).isSome

/-- Model of `repo.init(false, --initial-branch main)`: creates an empty repository;
on an existing repository git reinitialises without destroying anything,
modelled as the identity. -/
def gitInit (h : GitHandle) (branch : String) (w : World) : World :=
  match lookupEntry w.repos h.gitDir with
  | some _ => w
  | none => { w with repos := setEntry w.repos h.gitDir ⟨branch, [], []⟩ }

/-- Lines of an ignore file (the engine capability of §6 of the spec,
restricted to literal path entries: a file is ignored when its relative
name is a line of the ignore file). -/
def ignoreLines (c : String) : List String :=
  (splitOnChar '\n' c).filter (fun l => l ≠ "")

/-- Is a relative name matched by the ignore rules. -/
def isIgnored (c name : String) : Bool := (ignoreLines c).contains name

/-- Name of a file relative to a work tree. -/
def relName (workTree p : String) : String := strDrop p (workTree.length + 1)

/-- The readable files below the work tree, as (relative name, content). -/
def worktreeEntries (h : GitHandle) (w : World) : List (String × String) :=
  w.files.filterMap (fun pr =>
    match pr.2 with
    | .content c =>
        if strStartsWith pr.1 (h.workTree ++ "/") then
          some (relName h.workTree pr.1, c)
        else none
    | .unreadable _ => none)

/-- The ignore rules in force for the work tree: git reads
`<workTree>/.gitignore` (the file `setupShadowGitRepository` keeps in sync
with the project's own ignore file). -/
def activeIgnore (h : GitHandle) (w : World) : String :=
  match lookupEntry w.files (pathJoin h.workTree ".gitignore") with
  | some (.content c) => c
  | _ => ""

/-- The files `git add .` stages: every readable work-tree file whose
relative name the ignore rules do not match. -/
def stagedFiles (h : GitHandle) (w : World) : List (String × String) :=
  (worktreeEntries h w).filter (fun pr => !(isIgnored (activeIgnore h w) pr.1))

/-- Model of `repo.add('.')`: replaces the index with the staged work-tree files. -/
def gitAdd (h : GitHandle) (w : World) : Except String World :=
  match lookupEntry w.repos h.gitDir with
  | none => .error ("fatal: not a git repository: " ++ h.gitDir)
  | some r =>
      let r2 : ShadowRepo := { r with index := stagedFiles h w }
      .ok { w with repos := setEntry w.repos h.gitDir r2 }

/-- Model of `repo.commit(msg)` (optionally `--allow-empty`): refuses when nothing
changed relative to `HEAD` unless empty commits are allowed; otherwise
appends a commit of the index, recording which configuration source the
handle's environment made git consult, and returns the new commit id. -/
def gitCommit (h : GitHandle) (msg : String) (allowEmpty : Bool) (w : World) :
    Except String (String × World) :=
  match lookupEntry w.repos h.gitDir with
  | none => .error ("fatal: not a git repository: " ++ h.gitDir)
  | some r =>
      let headTree := ((r.commits.getLast?).map Commit.tree).getD []
      if allowEmpty = false ∧ r.index = headTree then
        .error "nothing to commit, working tree clean"
      else
        let cid := commitName r.commits.length
        let r2 : ShadowRepo :=
          { r with commits := r.commits ++ [⟨cid, msg, h.configSource, r.index⟩] }
        .ok (cid, { w with repos := setEntry w.repos h.gitDir r2 })

/-- Model of `repo.raw('rev-parse', 'HEAD')`: the id of the last commit followed by
the newline git prints; fails when there is no repository or no commit. -/
def gitRevParseHead (h : GitHandle) (w : World) : Except String String :=
  match lookupEntry w.repos h.gitDir with
  | none => .error ("fatal: not a git repository: " ++ h.gitDir)
  | some r =>
      match r.commits.getLast? with
      | none => .error "fatal: ambiguous argument HEAD: unknown revision"
      | some c => .ok (c.id ++ "\n")

/-- The commit of a store with a given id. -/
def findCommit (r : ShadowRepo) (hash : String) : Option Commit :=
  r.commits.find? (fun c => c.id == hash)

/-- Model of `repo.raw(['restore', '--source', hash, '.'])`: overwrites every
work-tree path tracked at `hash` with its content at `hash`; paths the
snapshot does not contain are left alone, and the index is not touched. -/
def gitRestoreSource (h : GitHandle) (hash : String) (w : World) :
    Except String World :=
  match lookupEntry w.repos h.gitDir with
  | none => .error ("fatal: not a git repository: " ++ h.gitDir)
  | some r =>
      match findCommit r hash with
      | none => .error ("fatal: could not resolve " ++ hash)
      | some c =>
          .ok (c.tree.foldl
            (fun w2 pr => w2.writeFile (pathJoin h.workTree pr.1) pr.2) w)

/-- Model of `repo.clean('f', ['-d'])`: removes every work-tree file that is
neither in the index nor matched by the ignore rules.  `fault` injects an
engine failure (for example a permission error while deleting) to exercise
the error path. -/
def gitCleanFd (fault : Option String) (h : GitHandle) (w : World) :
    Except String World :=
  match fault with
  | some e => .error e
  | none =>
      match lookupEntry w.repos h.gitDir with
      | none => .error ("fatal: not a git repository: " ++ h.gitDir)
      | some r =>
          .ok { w with files := w.files.filter (fun pr =>
            if strStartsWith pr.1 (h.workTree ++ "/") then
              let name := relName h.workTree pr.1
              (lookupEntry r.index name).isSome
                || isIgnored (activeIgnore h w) name
            else true) }

/-! ## GitService (packages/core/src/services/gitService.ts) -/

/-- The process environment `GitService` runs under: the OS environment,
the outcome of `exec('git --version')` (`some e` when the probe's callback
receives an error, in which case `verifyGitAvailability` resolves `false`),
and an injectable engine fault for the `clean` call (for example a
permission error while deleting a file). -/
structure Env where
  os : OsEnv
  gitVersionError : Option String
  cleanFault : Option String
deriving DecidableEq

/-- One entry of the effect trace an operation performs, in order. -/
inductive Eff
  | mkdirp : String → Eff
  | fsWrite : String → String → Eff
  | fsRead : String → Eff
  | checkIsRepoRoot : String → Eff
  | gitInit : String → String → Eff
  | gitCommit : String → String → ConfigSource → Bool → Eff
  | gitAdd : String → Eff
  | revParse : String → Eff
  | gitRestore : String → String → Eff
  | gitClean : String → Eff
deriving DecidableEq

deriving instance DecidableEq for Except

/-- Result of one embedded operation: its value or thrown error message,
the world it leaves behind (on error: the world at the point of failure —
nothing is rolled back), and the effect trace. -/
structure Outcome (α : Type) where
  res : Except String α
  world : World
  trace : List Eff
deriving DecidableEq

/-- The `GitService` class: `projectRoot` (the constructor stores
`path.resolve(projectRoot)`) and its `Storage`. -/
structure GitService where
  projectRoot : String
  storage : Storage
deriving DecidableEq

/-- The `GitService` constructor: `this.projectRoot = path.resolve(projectRoot)`
(resolved against the current working directory), `this.storage = storage`. -/
def GitService.make (os : OsEnv) (projectRoot : String) (storage : Storage) :
    GitService :=
  ⟨pathResolve os.cwd projectRoot, storage⟩

/-- Model of `GitService.getHistoryDir`: delegates to `storage.getHistoryDir()`. -/
def GitService.getHistoryDir (os : OsEnv) (g : GitService) : String :=
  Storage.getHistoryDir os g.storage

/-- Model of `GitService.verifyGitAvailability`: runs `exec('git --version')` and
resolves `false` on a callback error and `true` otherwise — it always
resolves to a boolean and never rejects. -/
def GitService.verifyGitAvailability (env : Env) : Bool :=
  match env.gitVersionError with
  | some _ => false
  | none => true

/-- The dedicated gitconfig content `setupShadowGitRepository` writes. -/
def gitConfigContent : String :=
  "[user]\n  name = Gemini CLI\n  email = gemini-cli@google.com\n[commit]\n  gpgsign = false\n"

/-- The ignore-rule synchronisation at the end of
`setupShadowGitRepository`: read `<projectRoot>/.gitignore`, treating
ENOENT as empty content and rethrowing any other read error, then write
the content into `<historyDir>/.gitignore`.  `eff` is the trace of the
steps already performed. -/
def GitService.syncIgnore (os : OsEnv) (g : GitService) (w : World)
    (eff : List Eff) : Outcome Unit :=
  let repoDir := GitService.getHistoryDir os g
  let userGitIgnorePath := pathJoin g.projectRoot ".gitignore"
  let shadowGitIgnorePath := pathJoin repoDir ".gitignore"
  match w.readFile userGitIgnorePath with
  | .error (.other e) => ⟨.error e, w, eff ++ [.fsRead userGitIgnorePath]⟩
  | .error .enoent =>
      ⟨.ok (), w.writeFile shadowGitIgnorePath "",
        eff ++ [.fsRead userGitIgnorePath, .fsWrite shadowGitIgnorePath ""]⟩
  | .ok c =>
      ⟨.ok (), w.writeFile shadowGitIgnorePath c,
        eff ++ [.fsRead userGitIgnorePath, .fsWrite shadowGitIgnorePath c]⟩

/-- Model of `GitService.setupShadowGitRepository`: create the history directory,
write the dedicated `.gitconfig`, check for an existing repository rooted
there (via `simpleGit(repoDir)`, i.e. with no environment overrides), and
only if none exists run `init` with initial branch `main` followed by an
empty `Initial commit`; finally synchronise the ignore file. -/
def GitService.setupShadowGitRepository (os : OsEnv) (g : GitService)
    (w : World) : Outcome Unit :=
  let repoDir := GitService.getHistoryDir os g
  let gitConfigPath := pathJoin repoDir ".gitconfig"
  let w1 := (w.mkdirp repoDir).writeFile gitConfigPath gitConfigContent
  let repo := simpleGit repoDir
  let isRepoDefined := gitCheckIsRepoRoot repo w1
  let pre : List Eff :=
    [.mkdirp repoDir, .fsWrite gitConfigPath gitConfigContent,
     .checkIsRepoRoot repo.gitDir]
  if isRepoDefined then
    GitService.syncIgnore os g w1 pre
  else
    let w2 := gitInit repo "main" w1
    let pre2 := pre ++ [.gitInit repo.gitDir "main",
      .gitCommit repo.gitDir "Initial commit" repo.configSource true]
    match gitCommit repo "Initial commit" true w2 with
    | .error e => ⟨.error e, w2, pre2⟩
    | .ok (_, w3) => GitService.syncIgnore os g w3 pre2

/-- The `EngineUnavailable` message `initialize` throws when the probe
reports git absent. -/
def engineUnavailableMsg : String :=
  "Checkpointing is enabled, but Git is not installed. Please install Git or disable checkpointing to continue."

/-- The wrapper `initialize` puts around a `setupShadowGitRepository`
failure (`error.message` is interpolated). -/
def initFailedMsg (e : String) : String :=
  "Failed to initialize checkpointing: " ++ e ++ ". Please check that Git is working properly or disable checkpointing."

/-- Model of `GitService.initialize`: probe git availability; when the probe is
negative throw the `EngineUnavailable` message without touching anything;
otherwise run `setupShadowGitRepository`, wrapping any failure. -/
def GitService.initializeService (env : Env) (g : GitService) (w : World) :
    Outcome Unit :=
  let gitAvailable := GitService.verifyGitAvailability env
  if gitAvailable then
    let r := GitService.setupShadowGitRepository env.os g w
    match r.res with
    | .ok _ => ⟨.ok (), r.world, r.trace⟩
    | .error e => ⟨.error (initFailedMsg e), r.world, r.trace⟩
  else
    ⟨.error engineUnavailableMsg, w, []⟩

/-- The `shadowGitRepository` getter:
`simpleGit(projectRoot).env(GIT_DIR: historyDir/.git, GIT_WORK_TREE:
projectRoot, HOME: historyDir, XDG_CONFIG_HOME: historyDir)` — work tree
is the real project root, metadata and configuration lookup point into the
isolated history directory. -/
def GitService.shadowGitRepository (os : OsEnv) (g : GitService) : GitHandle :=
  let repoDir := GitService.getHistoryDir os g
  (simpleGit g.projectRoot).withShadowEnv (pathJoin repoDir ".git")
    g.projectRoot repoDir

/-- Model of `GitService.getCurrentCommitHash`:
`(await shadowGitRepository.raw('rev-parse', 'HEAD')).trim()`; the engine
error propagates unwrapped. -/
def GitService.getCurrentCommitHash (os : OsEnv) (g : GitService)
    (w : World) : Outcome String :=
  let h := GitService.shadowGitRepository os g
  match gitRevParseHead h w with
  | .ok raw => ⟨.ok (strTrim raw), w, [.revParse h.gitDir]⟩
  | .error e => ⟨.error e, w, [.revParse h.gitDir]⟩

/-- The wrapper `createFileSnapshot` puts around any failure. -/
def snapshotFailedMsg (e : String) : String :=
  "Failed to create checkpoint snapshot: " ++ e ++ ". Checkpointing may not be working properly."

/-- Model of `GitService.createFileSnapshot`: `repo.add('.')` then
`repo.commit(message)` on the shadow handle, returning the new commit id;
any failure is caught and wrapped into the checkpoint-failed message. -/
def GitService.createFileSnapshot (os : OsEnv) (g : GitService)
    (message : String) (w : World) : Outcome String :=
  let h := GitService.shadowGitRepository os g
  match gitAdd h w with
  | .error e => ⟨.error (snapshotFailedMsg e), w, [.gitAdd h.gitDir]⟩
  | .ok w1 =>
      match gitCommit h message false w1 with
      | .error e => ⟨.error (snapshotFailedMsg e), w1,
          [.gitAdd h.gitDir, .gitCommit h.gitDir message h.configSource false]⟩
      | .ok (cid, w2) => ⟨.ok cid, w2,
          [.gitAdd h.gitDir, .gitCommit h.gitDir message h.configSource false]⟩

/-- Model of `GitService.restoreProjectFromSnapshot`:
`repo.raw(['restore', '--source', commitHash, '.'])` and then
`repo.clean('f', ['-d'])` on the shadow handle.  There is no try/catch:
either engine error propagates as-is, and a failure in the second phase
leaves the restored content of the first phase in place. -/
def GitService.restoreProjectFromSnapshot (env : Env) (g : GitService)
    (commitHash : String) (w : World) : Outcome Unit :=
  let h := GitService.shadowGitRepository env.os g
  match gitRestoreSource h commitHash w with
  | .error e => ⟨.error e, w, [.gitRestore h.gitDir commitHash]⟩
  | .ok w1 =>
      match gitCleanFd env.cleanFault h w1 with
      | .error e => ⟨.error e, w1,
          [.gitRestore h.gitDir commitHash, .gitClean h.gitDir]⟩
      | .ok w2 => ⟨.ok (), w2,
          [.gitRestore h.gitDir commitHash, .gitClean h.gitDir]⟩

/-! ## Named worlds and environments used by the concrete witnesses -/

/-- The key a shadow store of a project lives under: the `.git` directory
inside the history directory. -/
def shadowKey (os : OsEnv) (g : GitService) : String :=
  pathJoin (GitService.getHistoryDir os g) ".git"

/-- A world satisfies this when every repository in it has a resolvable
head (at least one commit).  Every repository this subsystem creates
satisfies it, because `initialize` commits immediately after `init`. -/
def WorldWF (w : World) : Prop := ∀ pr ∈ w.repos, pr.2.commits ≠ []

/-- OS environment of the concrete examples: home `/h`, temp `/t`, current
working directory `/w/app`. -/
def osW : OsEnv := ⟨"/h", "/t", "/w/app"⟩

/-- Process environment with git present and no injected faults. -/
def envW : Env := ⟨osW, none, none⟩

/-- Process environment in which `exec('git --version')` reports an
error. -/
def envNoGit : Env := ⟨osW, some "spawn git ENOENT", none⟩

/-- Process environment in which the `clean` engine call fails. -/
def envCleanFault : Env := ⟨osW, none, some "EACCES: permission denied"⟩

/-- Storage of the example project `/w/app`. -/
def stW : Storage := ⟨"/w/app"⟩

/-- GitService of the example project. -/
def gW : GitService := GitService.make osW "/w/app" stW

/-- A fresh world: one project file, one ignored project file, an ignore
file listing it, and no shadow repository yet. -/
def wFresh : World :=
  ⟨[("/w/app/a.txt", .content "v1"),
    ("/w/app/debug.log", .content "junk"),
    ("/w/app/.gitignore", .content "debug.log\n")], [], []⟩

/-- The example world after a successful `initialize`. -/
def wInit : World := (GitService.initializeService envW gW wFresh).world

/-! ## Lemmas about the association-list maps -/

theorem lookupEntry_setEntry_self {α : Type} (l : List (String × α))
    (k : String) (v : α) : lookupEntry (setEntry l k v) k = some v := by
  induction l with
  | nil => simp [setEntry, lookupEntry]
  | cons p rest ih =>
      by_cases h : p.1 = k
      · simp [setEntry, h, lookupEntry]
      · simp [setEntry, h, lookupEntry, ih]

theorem setEntry_lookup_fix {α : Type} {l : List (String × α)} {k : String}
    {v : α} (h : lookupEntry l k = some v) : setEntry l k v = l := by
  induction l with
  | nil => simp [lookupEntry] at h
  | cons p rest ih =>
      obtain ⟨k1, v1⟩ := p
      by_cases hp : k1 = k
      · subst hp
        simp [lookupEntry] at h
        simp [setEntry, h]
      · simp [lookupEntry, hp] at h
        simp [setEntry, hp, ih h]

theorem lookupEntry_setEntry_ne {α : Type} (l : List (String × α))
    {k k' : String} (v : α) (h : k' ≠ k) :
    lookupEntry (setEntry l k v) k' = lookupEntry l k' := by
  have h' : ¬(k = k') := fun hh => h hh.symm
  induction l with
  | nil => simp [setEntry, lookupEntry, h']
  | cons p rest ih =>
      by_cases hp : p.1 = k
      · simp [setEntry, hp, lookupEntry, h']
      · simp [setEntry, hp, lookupEntry, ih]

theorem setEntry_setEntry {α : Type} (l : List (String × α)) (k : String)
    (v v' : α) : setEntry (setEntry l k v) k v' = setEntry l k v' := by
  induction l with
  | nil => simp [setEntry]
  | cons p rest ih =>
      by_cases hp : p.1 = k
      · simp [setEntry, hp]
      · simp [setEntry, hp, ih]

theorem lookupEntry_mem {α : Type} {l : List (String × α)} {k : String}
    {v : α} (h : lookupEntry l k = some v) : (k, v) ∈ l := by
  induction l with
  | nil => simp [lookupEntry] at h
  | cons p rest ih =>
      obtain ⟨k1, v1⟩ := p
      by_cases hp : k1 = k
      · subst hp
        simp [lookupEntry] at h
        subst h
        exact List.mem_cons_self _ _
      · simp [lookupEntry, hp] at h
        exact List.mem_cons_of_mem _ (ih h)

theorem addDir_mem_fix {l : List String} {p : String} (h : p ∈ l) :
    addDir l p = l := by simp [addDir, h]

theorem mem_addDir (l : List String) (p : String) : p ∈ addDir l p := by
  by_cases h : p ∈ l
  · simp [addDir, h]
  · simp [addDir, h]

/-! ## Path distinctness lemmas -/

theorem append_ne_of_suffix_ne {x y : String} (a b : String)
    (hlen : x.data.length = y.data.length) (hne : x ≠ y) : a ++ x ≠ b ++ y := by
  intro h
  apply hne
  have hd := congrArg String.data h
  rw [String.data_append, String.data_append] at hd
  exact String.ext (List.append_inj' hd hlen).2

theorem pathJoin_eq_append (a : String) {b : String} (hb : b ≠ "") :
    ∃ q, pathJoin a b = q ++ b := by
  by_cases ha : a = ""
  · refine ⟨"", ?_⟩
    apply String.ext
    simp [pathJoin, ha, String.data_append]
  · exact ⟨a ++ "/", by simp [pathJoin, ha, hb]⟩

theorem config_ne_ignore (r p : String) :
    pathJoin r ".gitconfig" ≠ pathJoin p ".gitignore" := by
  obtain ⟨q1, h1⟩ := pathJoin_eq_append r (show (".gitconfig" : String) ≠ "" by decide)
  obtain ⟨q2, h2⟩ := pathJoin_eq_append p (show (".gitignore" : String) ≠ "" by decide)
  rw [h1, h2]
  exact append_ne_of_suffix_ne q1 q2 (by decide) (by decide)

/-! ## Claim theorems -/

set_option maxRecDepth 200000 in
/-- C1 (counterexample): the fingerprint is computed over the project root
exactly as supplied, with no canonicalization.  With the current working
directory `/work/app`, supplying the project root as the relative path `.`
and as its canonical absolute form `/work/app` yields two different
history directories for the same logical project — even though the
`GitService` constructor resolves its own `projectRoot` field to
`/work/app` in both cases. -/
theorem C1_relative_root_changes_fingerprint :
    Storage.getHistoryDir ⟨"/home/u", "/tmp", "/work/app"⟩ ⟨"."⟩ ≠
      Storage.getHistoryDir ⟨"/home/u", "/tmp", "/work/app"⟩
        ⟨pathResolve "/work/app" "."⟩ ∧
    (GitService.make ⟨"/home/u", "/tmp", "/work/app"⟩ "." ⟨"."⟩).projectRoot =
      "/work/app" := by
  constructor
  · decide
  · decide

/-- C1 (amended): no canonicalization happens before hashing.  The history
directory is `globalRoot/history/sha256hex(targetDir)` with `targetDir`
the string stored by the `Storage` constructor, exactly as supplied; the
`GitService` constructor applies `path.resolve` (absolute, but not
symlink-free) to its own `projectRoot` field only, and that resolved path
does not feed the fingerprint: the history directory depends only on the
`Storage` it was given. -/
theorem C1_fingerprint_of_raw_target_dir (os : OsEnv) (p : String)
    (st : Storage) :
    Storage.getHistoryDir os st =
      pathJoin (pathJoin (Storage.getGlobalGeminiDir os) "history")
        (sha256Hex st.targetDir) ∧
    (GitService.make os p st).projectRoot = pathResolve os.cwd p ∧
    GitService.getHistoryDir os (GitService.make os p st) =
      Storage.getHistoryDir os st :=
  ⟨rfl, rfl, rfl⟩

set_option maxRecDepth 200000 in
/-- C2: the history directory is `globalRoot/history/fingerprint`, the
per-project temp directory is `globalRoot/tmp/fingerprint`, with the
fingerprint the SHA-256 hex digest of the project path string (witnessed
on the standard test vector `abc`); both are pure path computations — no
operation on any filesystem state occurs in their definitions. -/
theorem C2_layout_under_global_root (os : OsEnv) (s : Storage) :
    Storage.getHistoryDir os s =
      pathJoin (pathJoin (Storage.getGlobalGeminiDir os) "history")
        (Storage.getFilePathHash s.targetDir) ∧
    Storage.getProjectTempDir os s =
      pathJoin (pathJoin (Storage.getGlobalGeminiDir os) "tmp")
        (Storage.getFilePathHash s.targetDir) ∧
    Storage.getFilePathHash "abc" =
      "ba7816bf8f01cfea414140de5dae2223b00361a396177a9cb410ff61f20015ad" := by
  refine ⟨rfl, rfl, ?_⟩
  decide

/-- C3: when the engine probe fails, `verifyGitAvailability` resolves to
`false` (it never rejects — its type is a total boolean), and `initialize`
stops at the call boundary with the `EngineUnavailable` message, leaving
the world untouched and performing no effect at all — in particular it
does not create the history directory. -/
theorem C3_engine_unavailable_stops_init (env : Env) (g : GitService)
    (w : World) (e : String) (h : env.gitVersionError = some e) :
    GitService.verifyGitAvailability env = false ∧
    GitService.initializeService env g w = ⟨.error engineUnavailableMsg, w, []⟩ := by
  have hv : GitService.verifyGitAvailability env = false := by
    simp [GitService.verifyGitAvailability, h]
  refine ⟨hv, ?_⟩
  simp [GitService.initializeService, hv]

/-- Witness for C3 at a concrete input: git probe error `spawn git ENOENT`
on the example project over a world holding one file. -/
theorem C3_engine_unavailable_stops_init_witness :
    GitService.verifyGitAvailability envNoGit = false ∧
    GitService.initializeService envNoGit gW wFresh =
      ⟨.error engineUnavailableMsg, wFresh, []⟩ :=
  C3_engine_unavailable_stops_init envNoGit gW wFresh
    "spawn git ENOENT" rfl

/-! ## Preservation and characterization lemmas for the setup steps -/

theorem mkdirp_write_files (w : World) (d p : String) (c : String) :
    ((w.mkdirp d).writeFile p c).files = setEntry w.files p (.content c) := rfl

theorem check_after_mkdirp_write (h : GitHandle) (w : World) (d p c : String) :
    gitCheckIsRepoRoot h ((w.mkdirp d).writeFile p c) = gitCheckIsRepoRoot h w := rfl

theorem gitInit_files (h : GitHandle) (b : String) (w : World) :
    (gitInit h b w).files = w.files := by
  unfold gitInit
  cases lookupEntry w.repos h.gitDir <;> rfl

theorem gitInit_dirs (h : GitHandle) (b : String) (w : World) :
    (gitInit h b w).dirs = w.dirs := by
  unfold gitInit
  cases lookupEntry w.repos h.gitDir <;> rfl

theorem gitCommit_ok_fs {h : GitHandle} {m : String} {ae : Bool} {w : World}
    {cid : String} {w' : World} (hc : gitCommit h m ae w = .ok (cid, w')) :
    w'.files = w.files ∧ w'.dirs = w.dirs := by
  unfold gitCommit at hc
  cases hl : lookupEntry w.repos h.gitDir with
  | none =>
      rw [hl] at hc
      exact absurd hc (by simp)
  | some r =>
      rw [hl] at hc
      dsimp only at hc
      by_cases he : ae = false ∧
          r.index = ((r.commits.getLast?).map Commit.tree).getD []
      · rw [if_pos he] at hc
        exact absurd hc (by simp)
      · rw [if_neg he] at hc
        simp only [Except.ok.injEq, Prod.mk.injEq] at hc
        rw [← hc.2]
        exact ⟨rfl, rfl⟩

theorem syncIgnore_read_ok {os : OsEnv} {g : GitService} {w : World}
    {eff : List Eff} {c : String}
    (h : w.readFile (pathJoin g.projectRoot ".gitignore") = .ok c) :
    GitService.syncIgnore os g w eff =
      ⟨.ok (),
        w.writeFile (pathJoin (GitService.getHistoryDir os g) ".gitignore") c,
        eff ++ [.fsRead (pathJoin g.projectRoot ".gitignore"),
          .fsWrite (pathJoin (GitService.getHistoryDir os g) ".gitignore") c]⟩ := by
  simp only [GitService.syncIgnore, h]

theorem syncIgnore_read_enoent {os : OsEnv} {g : GitService} {w : World}
    {eff : List Eff}
    (h : w.readFile (pathJoin g.projectRoot ".gitignore") = .error .enoent) :
    GitService.syncIgnore os g w eff =
      ⟨.ok (),
        w.writeFile (pathJoin (GitService.getHistoryDir os g) ".gitignore") "",
        eff ++ [.fsRead (pathJoin g.projectRoot ".gitignore"),
          .fsWrite (pathJoin (GitService.getHistoryDir os g) ".gitignore") ""]⟩ := by
  simp only [GitService.syncIgnore, h]

theorem syncIgnore_read_other {os : OsEnv} {g : GitService} {w : World}
    {eff : List Eff} {e : String}
    (h : w.readFile (pathJoin g.projectRoot ".gitignore") = .error (.other e)) :
    GitService.syncIgnore os g w eff =
      ⟨.error e, w, eff ++ [.fsRead (pathJoin g.projectRoot ".gitignore")]⟩ := by
  simp only [GitService.syncIgnore, h]

theorem setRepo_setRepo (w : World) (k : String) (r r2 : ShadowRepo) :
    (w.setRepo k r).setRepo k r2 = w.setRepo k r2 := by
  unfold World.setRepo
  simp [setEntry_setEntry]

theorem gitInit_of_none {h : GitHandle} {w : World} (b : String)
    (hl : lookupEntry w.repos h.gitDir = none) :
    gitInit h b w = w.setRepo h.gitDir ⟨b, [], []⟩ := by
  unfold gitInit World.setRepo
  rw [hl]

theorem gitCommit_allowEmpty_fresh {h : GitHandle} {w : World} {m b : String}
    (hl : lookupEntry w.repos h.gitDir = some ⟨b, [], []⟩) :
    gitCommit h m true w =
      .ok (commitName 0,
        w.setRepo h.gitDir ⟨b, [], [⟨commitName 0, m, h.configSource, []⟩]⟩) := by
  unfold gitCommit World.setRepo
  rw [hl]
  dsimp only
  rw [if_neg (by simp)]
  simp

theorem setup_repo_present {os : OsEnv} {g : GitService} {w : World}
    (hb : gitCheckIsRepoRoot (simpleGit (GitService.getHistoryDir os g)) w = true) :
    GitService.setupShadowGitRepository os g w =
      GitService.syncIgnore os g
        ((w.mkdirp (GitService.getHistoryDir os g)).writeFile
          (pathJoin (GitService.getHistoryDir os g) ".gitconfig")
          gitConfigContent)
        [.mkdirp (GitService.getHistoryDir os g),
         .fsWrite (pathJoin (GitService.getHistoryDir os g) ".gitconfig")
           gitConfigContent,
         .checkIsRepoRoot (shadowKey os g)] := by
  unfold GitService.setupShadowGitRepository
  dsimp only
  rw [check_after_mkdirp_write, hb]
  rfl

theorem setup_repo_absent {os : OsEnv} {g : GitService} {w : World}
    (hn : lookupEntry w.repos (shadowKey os g) = none) :
    GitService.setupShadowGitRepository os g w =
      GitService.syncIgnore os g
        (((w.mkdirp (GitService.getHistoryDir os g)).writeFile
            (pathJoin (GitService.getHistoryDir os g) ".gitconfig")
            gitConfigContent).setRepo (shadowKey os g)
          ⟨"main", [], [⟨commitName 0, "Initial commit", .userGlobal, []⟩]⟩)
        [.mkdirp (GitService.getHistoryDir os g),
         .fsWrite (pathJoin (GitService.getHistoryDir os g) ".gitconfig")
           gitConfigContent,
         .checkIsRepoRoot (shadowKey os g),
         .gitInit (shadowKey os g) "main",
         .gitCommit (shadowKey os g) "Initial commit" .userGlobal true] := by
  have hkey : (simpleGit (GitService.getHistoryDir os g)).gitDir
      = shadowKey os g := rfl
  have hb : gitCheckIsRepoRoot (simpleGit (GitService.getHistoryDir os g)) w
      = false := by
    unfold gitCheckIsRepoRoot
    rw [hkey, hn]
    rfl
  unfold GitService.setupShadowGitRepository
  dsimp only
  rw [check_after_mkdirp_write, hb, if_neg (by simp)]
  have hn1 : lookupEntry
      ((w.mkdirp (GitService.getHistoryDir os g)).writeFile
        (pathJoin (GitService.getHistoryDir os g) ".gitconfig")
        gitConfigContent).repos
      (simpleGit (GitService.getHistoryDir os g)).gitDir = none := hn
  rw [gitInit_of_none "main" hn1]
  have hsome : lookupEntry
      (((w.mkdirp (GitService.getHistoryDir os g)).writeFile
        (pathJoin (GitService.getHistoryDir os g) ".gitconfig")
        gitConfigContent).setRepo
          (simpleGit (GitService.getHistoryDir os g)).gitDir
          ⟨"main", [], []⟩).repos
      (simpleGit (GitService.getHistoryDir os g)).gitDir = some ⟨"main", [], []⟩ :=
    lookupEntry_setEntry_self _ _ _
  rw [gitCommit_allowEmpty_fresh hsome]
  dsimp only
  rw [setRepo_setRepo, hkey]
  rfl

theorem initialize_unfold {env : Env} {g : GitService} {w : World}
    (hv : env.gitVersionError = none) :
    (GitService.initializeService env g w).world =
      (GitService.setupShadowGitRepository env.os g w).world ∧
    (GitService.initializeService env g w).trace =
      (GitService.setupShadowGitRepository env.os g w).trace ∧
    ((GitService.setupShadowGitRepository env.os g w).res = .ok () →
      (GitService.initializeService env g w).res = .ok ()) ∧
    (∀ e, (GitService.setupShadowGitRepository env.os g w).res = .error e →
      (GitService.initializeService env g w).res = .error (initFailedMsg e)) := by
  have hva : GitService.verifyGitAvailability env = true := by
    simp [GitService.verifyGitAvailability, hv]
  unfold GitService.initializeService
  rw [hva]
  dsimp only
  cases hres : (GitService.setupShadowGitRepository env.os g w).res with
  | ok u => simp
  | error e => simp

/-- C10: every run of `setupShadowGitRepository` unconditionally rewrites
`historyDir/.gitconfig` with the fixed dedicated content, before and
independently of the repository-existence check: the trace always starts
with mkdir, the config write, and then the check, and the final world
always holds exactly the fixed content at that path — whatever was there
before (any prior manual edit) is discarded; consequently the same holds
after any successful `initialize`. -/
theorem C10_dedicated_config_always_rewritten (env : Env) (g : GitService)
    (w : World) :
    (∃ rest, (GitService.setupShadowGitRepository env.os g w).trace =
        Eff.mkdirp (GitService.getHistoryDir env.os g) ::
        Eff.fsWrite (pathJoin (GitService.getHistoryDir env.os g) ".gitconfig")
          gitConfigContent ::
        Eff.checkIsRepoRoot (shadowKey env.os g) :: rest) ∧
    lookupEntry (GitService.setupShadowGitRepository env.os g w).world.files
        (pathJoin (GitService.getHistoryDir env.os g) ".gitconfig") =
      some (.content gitConfigContent) ∧
    (env.gitVersionError = none →
      lookupEntry (GitService.initializeService env g w).world.files
          (pathJoin (GitService.getHistoryDir env.os g) ".gitconfig") =
        some (.content gitConfigContent)) := by
  have hmain : (∃ rest, (GitService.setupShadowGitRepository env.os g w).trace =
        Eff.mkdirp (GitService.getHistoryDir env.os g) ::
        Eff.fsWrite (pathJoin (GitService.getHistoryDir env.os g) ".gitconfig")
          gitConfigContent ::
        Eff.checkIsRepoRoot (shadowKey env.os g) :: rest) ∧
      lookupEntry (GitService.setupShadowGitRepository env.os g w).world.files
          (pathJoin (GitService.getHistoryDir env.os g) ".gitconfig") =
        some (.content gitConfigContent) := by
    by_cases hb : gitCheckIsRepoRoot
        (simpleGit (GitService.getHistoryDir env.os g)) w = true
    · rw [setup_repo_present hb]
      cases hr : ((w.mkdirp (GitService.getHistoryDir env.os g)).writeFile
          (pathJoin (GitService.getHistoryDir env.os g) ".gitconfig")
          gitConfigContent).readFile (pathJoin g.projectRoot ".gitignore") with
      | ok c =>
          rw [syncIgnore_read_ok hr]
          refine ⟨⟨_, rfl⟩, ?_⟩
          show lookupEntry (setEntry _ _ _) _ = _
          rw [lookupEntry_setEntry_ne _ _
            (config_ne_ignore (GitService.getHistoryDir env.os g)
              (GitService.getHistoryDir env.os g))]
          exact lookupEntry_setEntry_self _ _ _
      | error e =>
          cases e with
          | enoent =>
              rw [syncIgnore_read_enoent hr]
              refine ⟨⟨_, rfl⟩, ?_⟩
              show lookupEntry (setEntry _ _ _) _ = _
              rw [lookupEntry_setEntry_ne _ _
                (config_ne_ignore (GitService.getHistoryDir env.os g)
                  (GitService.getHistoryDir env.os g))]
              exact lookupEntry_setEntry_self _ _ _
          | other msg =>
              rw [syncIgnore_read_other hr]
              exact ⟨⟨_, rfl⟩, lookupEntry_setEntry_self _ _ _⟩
    · have hn : lookupEntry w.repos (shadowKey env.os g) = none := by
        cases hl : lookupEntry w.repos (shadowKey env.os g) with
        | none => rfl
        | some r =>
            exfalso
            apply hb
            unfold gitCheckIsRepoRoot
            rw [show (simpleGit (GitService.getHistoryDir env.os g)).gitDir
              = shadowKey env.os g from rfl, hl]
            rfl
      rw [setup_repo_absent hn]
      cases hr : (((w.mkdirp (GitService.getHistoryDir env.os g)).writeFile
          (pathJoin (GitService.getHistoryDir env.os g) ".gitconfig")
          gitConfigContent).setRepo (shadowKey env.os g)
            ⟨"main", [],
             [⟨commitName 0, "Initial commit", .userGlobal, []⟩]⟩).readFile
          (pathJoin g.projectRoot ".gitignore") with
      | ok c =>
          rw [syncIgnore_read_ok hr]
          refine ⟨⟨_, rfl⟩, ?_⟩
          show lookupEntry (setEntry _ _ _) _ = _
          rw [lookupEntry_setEntry_ne _ _
            (config_ne_ignore (GitService.getHistoryDir env.os g)
              (GitService.getHistoryDir env.os g))]
          exact lookupEntry_setEntry_self _ _ _
      | error e =>
          cases e with
          | enoent =>
              rw [syncIgnore_read_enoent hr]
              refine ⟨⟨_, rfl⟩, ?_⟩
              show lookupEntry (setEntry _ _ _) _ = _
              rw [lookupEntry_setEntry_ne _ _
                (config_ne_ignore (GitService.getHistoryDir env.os g)
                  (GitService.getHistoryDir env.os g))]
              exact lookupEntry_setEntry_self _ _ _
          | other msg =>
              rw [syncIgnore_read_other hr]
              exact ⟨⟨_, rfl⟩, lookupEntry_setEntry_self _ _ _⟩
  refine ⟨hmain.1, hmain.2, fun hv => ?_⟩
  rw [(initialize_unfold hv).1]
  exact hmain.2

/-- Witness for C10 at a concrete input: after `initialize` on the fresh
example world, the dedicated config file holds exactly the fixed
content. -/
theorem C10_dedicated_config_always_rewritten_witness :
    lookupEntry (GitService.initializeService envW gW wFresh).world.files
        (pathJoin (GitService.getHistoryDir envW.os gW) ".gitconfig") =
      some (.content gitConfigContent) :=
  (C10_dedicated_config_always_rewritten envW gW wFresh).2.2 rfl

theorem readFile_after_cfg_write (w : World) (d r p : String) :
    ((w.mkdirp d).writeFile (pathJoin r ".gitconfig") gitConfigContent).readFile
      (pathJoin p ".gitignore") = w.readFile (pathJoin p ".gitignore") := by
  unfold World.readFile
  rw [mkdirp_write_files,
    lookupEntry_setEntry_ne _ _ (Ne.symm (config_ne_ignore r p))]

theorem readFile_setRepo (w : World) (k : String) (r : ShadowRepo)
    (p : String) : (w.setRepo k r).readFile p = w.readFile p := rfl

theorem check_false_none {os : OsEnv} {g : GitService} {w : World}
    (hb : ¬gitCheckIsRepoRoot (simpleGit (GitService.getHistoryDir os g)) w
        = true) :
    lookupEntry w.repos (shadowKey os g) = none := by
  cases hl : lookupEntry w.repos (shadowKey os g) with
  | none => rfl
  | some r =>
      exfalso
      apply hb
      unfold gitCheckIsRepoRoot
      rw [show (simpleGit (GitService.getHistoryDir os g)).gitDir
        = shadowKey os g from rfl, hl]
      rfl

/-- C5: on every `initialize` (with the engine present), the project's own
ignore file is read treating a missing file as non-error — the shadow
store's ignore file is then overwritten with the project's ignore content,
or with empty content when none existed — while any other read failure
propagates as an error (wrapped at the `initialize` boundary). -/
theorem C5_ignore_sync_on_init (env : Env) (g : GitService) (w : World)
    (hgit : env.gitVersionError = none) :
    (∀ c, w.readFile (pathJoin g.projectRoot ".gitignore") = .ok c →
      (GitService.initializeService env g w).res = .ok () ∧
      lookupEntry (GitService.initializeService env g w).world.files
          (pathJoin (GitService.getHistoryDir env.os g) ".gitignore") =
        some (.content c)) ∧
    (w.readFile (pathJoin g.projectRoot ".gitignore") = .error .enoent →
      (GitService.initializeService env g w).res = .ok () ∧
      lookupEntry (GitService.initializeService env g w).world.files
          (pathJoin (GitService.getHistoryDir env.os g) ".gitignore") =
        some (.content "")) ∧
    (∀ e, w.readFile (pathJoin g.projectRoot ".gitignore") = .error (.other e) →
      (GitService.initializeService env g w).res = .error (initFailedMsg e)) := by
  have hiu := @initialize_unfold env g w hgit
  refine ⟨?_, ?_, ?_⟩
  · intro c hc
    by_cases hb : gitCheckIsRepoRoot
        (simpleGit (GitService.getHistoryDir env.os g)) w = true
    · have hs := @setup_repo_present env.os g w hb
      have hr : ((w.mkdirp (GitService.getHistoryDir env.os g)).writeFile
          (pathJoin (GitService.getHistoryDir env.os g) ".gitconfig")
          gitConfigContent).readFile (pathJoin g.projectRoot ".gitignore")
          = .ok c := by
        rw [readFile_after_cfg_write]
        exact hc
      rw [syncIgnore_read_ok hr] at hs
      refine ⟨hiu.2.2.1 (by rw [hs]), ?_⟩
      rw [hiu.1, hs]
      exact lookupEntry_setEntry_self _ _ _
    · have hs := @setup_repo_absent env.os g w (check_false_none hb)
      have hr : (((w.mkdirp (GitService.getHistoryDir env.os g)).writeFile
          (pathJoin (GitService.getHistoryDir env.os g) ".gitconfig")
          gitConfigContent).setRepo (shadowKey env.os g)
            ⟨"main", [],
             [⟨commitName 0, "Initial commit", .userGlobal, []⟩]⟩).readFile
          (pathJoin g.projectRoot ".gitignore") = .ok c := by
        rw [readFile_setRepo, readFile_after_cfg_write]
        exact hc
      rw [syncIgnore_read_ok hr] at hs
      refine ⟨hiu.2.2.1 (by rw [hs]), ?_⟩
      rw [hiu.1, hs]
      exact lookupEntry_setEntry_self _ _ _
  · intro hc
    by_cases hb : gitCheckIsRepoRoot
        (simpleGit (GitService.getHistoryDir env.os g)) w = true
    · have hs := @setup_repo_present env.os g w hb
      have hr : ((w.mkdirp (GitService.getHistoryDir env.os g)).writeFile
          (pathJoin (GitService.getHistoryDir env.os g) ".gitconfig")
          gitConfigContent).readFile (pathJoin g.projectRoot ".gitignore")
          = .error .enoent := by
        rw [readFile_after_cfg_write]
        exact hc
      rw [syncIgnore_read_enoent hr] at hs
      refine ⟨hiu.2.2.1 (by rw [hs]), ?_⟩
      rw [hiu.1, hs]
      exact lookupEntry_setEntry_self _ _ _
    · have hs := @setup_repo_absent env.os g w (check_false_none hb)
      have hr : (((w.mkdirp (GitService.getHistoryDir env.os g)).writeFile
          (pathJoin (GitService.getHistoryDir env.os g) ".gitconfig")
          gitConfigContent).setRepo (shadowKey env.os g)
            ⟨"main", [],
             [⟨commitName 0, "Initial commit", .userGlobal, []⟩]⟩).readFile
          (pathJoin g.projectRoot ".gitignore") = .error .enoent := by
        rw [readFile_setRepo, readFile_after_cfg_write]
        exact hc
      rw [syncIgnore_read_enoent hr] at hs
      refine ⟨hiu.2.2.1 (by rw [hs]), ?_⟩
      rw [hiu.1, hs]
      exact lookupEntry_setEntry_self _ _ _
  · intro e hc
    by_cases hb : gitCheckIsRepoRoot
        (simpleGit (GitService.getHistoryDir env.os g)) w = true
    · have hs := @setup_repo_present env.os g w hb
      have hr : ((w.mkdirp (GitService.getHistoryDir env.os g)).writeFile
          (pathJoin (GitService.getHistoryDir env.os g) ".gitconfig")
          gitConfigContent).readFile (pathJoin g.projectRoot ".gitignore")
          = .error (.other e) := by
        rw [readFile_after_cfg_write]
        exact hc
      rw [syncIgnore_read_other hr] at hs
      exact hiu.2.2.2 e (by rw [hs])
    · have hs := @setup_repo_absent env.os g w (check_false_none hb)
      have hr : (((w.mkdirp (GitService.getHistoryDir env.os g)).writeFile
          (pathJoin (GitService.getHistoryDir env.os g) ".gitconfig")
          gitConfigContent).setRepo (shadowKey env.os g)
            ⟨"main", [],
             [⟨commitName 0, "Initial commit", .userGlobal, []⟩]⟩).readFile
          (pathJoin g.projectRoot ".gitignore") = .error (.other e) := by
        rw [readFile_setRepo, readFile_after_cfg_write]
        exact hc
      rw [syncIgnore_read_other hr] at hs
      exact hiu.2.2.2 e (by rw [hs])

/-- Witness for C5 at a concrete input: the fresh example world has an
ignore file with content `debug.log`, and after `initialize` the shadow
ignore file holds exactly that content. -/
theorem C5_ignore_sync_on_init_witness :
    (GitService.initializeService envW gW wFresh).res = .ok () ∧
    lookupEntry (GitService.initializeService envW gW wFresh).world.files
        (pathJoin (GitService.getHistoryDir envW.os gW) ".gitignore") =
      some (.content "debug.log\n") :=
  (C5_ignore_sync_on_init envW gW wFresh rfl).1 "debug.log\n" rfl

theorem syncIgnore_repos (os : OsEnv) (g : GitService) (w : World)
    (eff : List Eff) :
    (GitService.syncIgnore os g w eff).world.repos = w.repos := by
  cases hr : w.readFile (pathJoin g.projectRoot ".gitignore") with
  | ok c =>
      rw [syncIgnore_read_ok hr]
      rfl
  | error e =>
      cases e with
      | enoent =>
          rw [syncIgnore_read_enoent hr]
          rfl
      | other m =>
          rw [syncIgnore_read_other hr]

theorem getHash_of_commits {os : OsEnv} {g : GitService} {w : World}
    {r : ShadowRepo} (hr : lookupEntry w.repos (shadowKey os g) = some r)
    (hne : r.commits ≠ []) :
    ∃ hsh, (GitService.getCurrentCommitHash os g w).res = .ok hsh := by
  have hsome : r.commits.getLast?.isSome := by
    rw [List.getLast?_isSome]
    exact hne
  obtain ⟨c, hc⟩ := Option.isSome_iff_exists.mp hsome
  refine ⟨strTrim (c.id ++ "\n"), ?_⟩
  have hrp : gitRevParseHead (GitService.shadowGitRepository os g) w
      = .ok (c.id ++ "\n") := by
    unfold gitRevParseHead
    rw [show (GitService.shadowGitRepository os g).gitDir = shadowKey os g
      from rfl, hr]
    dsimp only
    rw [hc]
  unfold GitService.getCurrentCommitHash
  dsimp only
  rw [hrp]

/-- C7: `getCurrentCommitHash` works over the shadow handle whose work
tree is the real project root and whose metadata, and configuration
lookup, point into the isolated history directory; it returns the raw
`rev-parse HEAD` output trimmed of whitespace; it fails with the engine's
error when the store was never initialized (no repository at the history
directory) or when the engine call fails; and after a successful
`initialize` on a world whose existing stores all have a resolvable head,
it always resolves (the bootstrap empty commit guarantees a head). -/
theorem C7_current_head_resolution (env : Env) (g : GitService) (w : World)
    (hwf : WorldWF w) :
    (GitService.shadowGitRepository env.os g).baseDir = g.projectRoot ∧
    (GitService.shadowGitRepository env.os g).workTreeOverride =
      some g.projectRoot ∧
    (GitService.shadowGitRepository env.os g).gitDirOverride =
      some (pathJoin (GitService.getHistoryDir env.os g) ".git") ∧
    (GitService.shadowGitRepository env.os g).homeOverride =
      some (GitService.getHistoryDir env.os g) ∧
    (lookupEntry w.repos (shadowKey env.os g) = none →
      (GitService.getCurrentCommitHash env.os g w).res =
        .error ("fatal: not a git repository: " ++ shadowKey env.os g)) ∧
    (∀ raw, gitRevParseHead (GitService.shadowGitRepository env.os g) w
        = .ok raw →
      (GitService.getCurrentCommitHash env.os g w).res = .ok (strTrim raw)) ∧
    (∀ e, gitRevParseHead (GitService.shadowGitRepository env.os g) w
        = .error e →
      (GitService.getCurrentCommitHash env.os g w).res = .error e) ∧
    (env.gitVersionError = none →
      (GitService.initializeService env g w).res = .ok () →
      ∃ hsh, (GitService.getCurrentCommitHash env.os g
        (GitService.initializeService env g w).world).res = .ok hsh) := by
  refine ⟨rfl, rfl, rfl, rfl, ?_, ?_, ?_, ?_⟩
  · intro hn
    have hrp : gitRevParseHead (GitService.shadowGitRepository env.os g) w
        = .error ("fatal: not a git repository: " ++ shadowKey env.os g) := by
      unfold gitRevParseHead
      rw [show (GitService.shadowGitRepository env.os g).gitDir
        = shadowKey env.os g from rfl, hn]
    unfold GitService.getCurrentCommitHash
    dsimp only
    rw [hrp]
  · intro raw hraw
    unfold GitService.getCurrentCommitHash
    dsimp only
    rw [hraw]
  · intro e he
    unfold GitService.getCurrentCommitHash
    dsimp only
    rw [he]
  · intro hv hok
    have hiu := @initialize_unfold env g w hv
    rw [hiu.1]
    by_cases hb : gitCheckIsRepoRoot
        (simpleGit (GitService.getHistoryDir env.os g)) w = true
    · have hs := @setup_repo_present env.os g w hb
      have hrepos : (GitService.setupShadowGitRepository env.os g w).world.repos
          = w.repos := by
        rw [hs, syncIgnore_repos]
        rfl
      obtain ⟨r, hr⟩ : ∃ r, lookupEntry w.repos (shadowKey env.os g)
          = some r := by
        unfold gitCheckIsRepoRoot at hb
        rw [show (simpleGit (GitService.getHistoryDir env.os g)).gitDir
          = shadowKey env.os g from rfl] at hb
        exact Option.isSome_iff_exists.mp hb
      have hr1 : lookupEntry
          (GitService.setupShadowGitRepository env.os g w).world.repos
          (shadowKey env.os g) = some r := by rw [hrepos]; exact hr
      exact getHash_of_commits hr1 (hwf _ (lookupEntry_mem hr))
    · have hs := @setup_repo_absent env.os g w (check_false_none hb)
      have hrepos : (GitService.setupShadowGitRepository env.os g w).world.repos
          = setEntry w.repos (shadowKey env.os g)
              ⟨"main", [],
               [⟨commitName 0, "Initial commit", .userGlobal, []⟩]⟩ := by
        rw [hs, syncIgnore_repos]
        rfl
      have hr1 : lookupEntry
          (GitService.setupShadowGitRepository env.os g w).world.repos
          (shadowKey env.os g) = some
            ⟨"main", [],
             [⟨commitName 0, "Initial commit", .userGlobal, []⟩]⟩ := by
        rw [hrepos]
        exact lookupEntry_setEntry_self _ _ _
      exact getHash_of_commits hr1 (by simp)

set_option maxRecDepth 200000 in
/-- Witness for C7 at a concrete input: the fresh example world is
well-formed, `initialize` succeeds on it, and the head reference then
resolves. -/
theorem C7_current_head_resolution_witness :
    ∃ hsh, (GitService.getCurrentCommitHash envW.os gW
      (GitService.initializeService envW gW wFresh).world).res = .ok hsh :=
  (C7_current_head_resolution envW gW wFresh
      (fun pr hpr => absurd hpr (List.not_mem_nil pr))).2.2.2.2.2.2.2
    rfl (by decide)

/-- C9 (amended): restore is two-phase with significant ordering — the
content of the snapshot is restored onto the working tree strictly before
untracked files are removed — and there is no rollback: when the second
phase fails, the returned world keeps everything phase one wrote.  A
failure of either phase, however, propagates the raw engine error
unchanged (there is no try/catch in `restoreProjectFromSnapshot`), rather
than a `RestoreFailed` wrapper around the cause. -/
theorem C9_two_phase_restore_no_rollback (env : Env) (g : GitService)
    (hash : String) (w : World) :
    ((GitService.restoreProjectFromSnapshot env g hash w).trace =
        [Eff.gitRestore (shadowKey env.os g) hash] ∨
      (GitService.restoreProjectFromSnapshot env g hash w).trace =
        [Eff.gitRestore (shadowKey env.os g) hash,
         Eff.gitClean (shadowKey env.os g)]) ∧
    (∀ e, gitRestoreSource (GitService.shadowGitRepository env.os g) hash w
        = .error e →
      GitService.restoreProjectFromSnapshot env g hash w =
        ⟨.error e, w, [Eff.gitRestore (shadowKey env.os g) hash]⟩) ∧
    (∀ w1, gitRestoreSource (GitService.shadowGitRepository env.os g) hash w
        = .ok w1 →
      (∀ e, gitCleanFd env.cleanFault
          (GitService.shadowGitRepository env.os g) w1 = .error e →
        GitService.restoreProjectFromSnapshot env g hash w =
          ⟨.error e, w1, [Eff.gitRestore (shadowKey env.os g) hash,
            Eff.gitClean (shadowKey env.os g)]⟩) ∧
      (∀ w2, gitCleanFd env.cleanFault
          (GitService.shadowGitRepository env.os g) w1 = .ok w2 →
        GitService.restoreProjectFromSnapshot env g hash w =
          ⟨.ok (), w2, [Eff.gitRestore (shadowKey env.os g) hash,
            Eff.gitClean (shadowKey env.os g)]⟩)) := by
  refine ⟨?_, ?_, ?_⟩
  · cases hrs : gitRestoreSource (GitService.shadowGitRepository env.os g)
        hash w with
    | error e0 =>
        left
        unfold GitService.restoreProjectFromSnapshot
        dsimp only
        rw [hrs]
        rfl
    | ok w1 =>
        right
        unfold GitService.restoreProjectFromSnapshot
        dsimp only
        rw [hrs]
        dsimp only
        cases hcl : gitCleanFd env.cleanFault
            (GitService.shadowGitRepository env.os g) w1 with
        | error e => rfl
        | ok w2 => rfl
  · intro e he
    unfold GitService.restoreProjectFromSnapshot
    dsimp only
    rw [he]
    rfl
  · intro w1 hw1
    constructor
    · intro e hcl
      unfold GitService.restoreProjectFromSnapshot
      dsimp only
      rw [hw1]
      dsimp only
      rw [hcl]
      rfl
    · intro w2 hcl
      unfold GitService.restoreProjectFromSnapshot
      dsimp only
      rw [hw1]
      dsimp only
      rw [hcl]
      rfl

set_option maxRecDepth 200000 in
/-- C9 (counterexample to the wrapping part of the claim): on the
initialized example store, with the engine clean call failing with
`EACCES: permission denied`, `restoreProjectFromSnapshot` surfaces exactly
that raw engine message — it does not produce a contextual
`RestoreFailed`-style wrapper (compare `snapshotFailedMsg` and
`initFailedMsg`, the wrappers the codebase uses elsewhere, which start
with `Failed`). -/
theorem C9_raw_engine_error_surfaces :
    (GitService.restoreProjectFromSnapshot envCleanFault gW "commit-0"
        wInit).res = .error "EACCES: permission denied" ∧
    strStartsWith "EACCES: permission denied" "Failed" = false ∧
    strStartsWith (snapshotFailedMsg "EACCES: permission denied") "Failed"
      = true := by
  refine ⟨by decide, by decide, by decide⟩

theorem gitAdd_of_some {h : GitHandle} {w : World} {repo : ShadowRepo}
    (hl : lookupEntry w.repos h.gitDir = some repo) :
    gitAdd h w =
      .ok (w.setRepo h.gitDir ⟨repo.branch, stagedFiles h w, repo.commits⟩) := by
  unfold gitAdd World.setRepo
  rw [hl]

theorem gitCommit_of_some {h : GitHandle} {w : World} {repo : ShadowRepo}
    {m : String} {ae : Bool}
    (hl : lookupEntry w.repos h.gitDir = some repo) :
    gitCommit h m ae w =
      (if ae = false ∧ repo.index = ((repo.commits.getLast?).map Commit.tree).getD []
       then .error "nothing to commit, working tree clean"
       else .ok (commitName repo.commits.length,
         w.setRepo h.gitDir ⟨repo.branch, repo.index, repo.commits ++
           [⟨commitName repo.commits.length, m, h.configSource, repo.index⟩]⟩)) := by
  unfold gitCommit World.setRepo
  rw [hl]

theorem gitAdd_of_none {h : GitHandle} {w : World}
    (hl : lookupEntry w.repos h.gitDir = none) :
    gitAdd h w = .error ("fatal: not a git repository: " ++ h.gitDir) := by
  unfold gitAdd
  rw [hl]

/-- C8: `createFileSnapshot` stages exactly the current readable files of
the real working tree whose names the active ignore rules do not match
(files ignored by the project's ignore policy are never staged), commits
them under the given message through the shadow handle — so the commit is
recorded under the dedicated history-directory configuration — and
returns the new snapshot's reference; when the underlying engine fails
(store missing, or the engine's refusal of an empty commit), the raw cause
is wrapped into the checkpoint-failed message rather than surfacing
unwrapped. -/
theorem C8_snapshot_stages_commits_wraps (os : OsEnv) (g : GitService)
    (w : World) (message : String) :
    (lookupEntry w.repos (shadowKey os g) = none →
      (GitService.createFileSnapshot os g message w).res =
        .error (snapshotFailedMsg
          ("fatal: not a git repository: " ++ shadowKey os g))) ∧
    (∀ repo, lookupEntry w.repos (shadowKey os g) = some repo →
      (stagedFiles (GitService.shadowGitRepository os g) w =
          ((repo.commits.getLast?).map Commit.tree).getD [] →
        (GitService.createFileSnapshot os g message w).res =
          .error (snapshotFailedMsg "nothing to commit, working tree clean")) ∧
      (stagedFiles (GitService.shadowGitRepository os g) w ≠
          ((repo.commits.getLast?).map Commit.tree).getD [] →
        (GitService.createFileSnapshot os g message w).res =
          .ok (commitName repo.commits.length) ∧
        lookupEntry (GitService.createFileSnapshot os g message w).world.repos
            (shadowKey os g) =
          some ⟨repo.branch, stagedFiles (GitService.shadowGitRepository os g) w,
            repo.commits ++
              [⟨commitName repo.commits.length, message, .historyDirConfig,
                stagedFiles (GitService.shadowGitRepository os g) w⟩]⟩)) ∧
    (∀ name c, (name, c) ∈ stagedFiles (GitService.shadowGitRepository os g) w →
      isIgnored (activeIgnore (GitService.shadowGitRepository os g) w) name
        = false) ∧
    (∀ name c, (name, c) ∈ stagedFiles (GitService.shadowGitRepository os g) w ↔
      ((name, c) ∈ worktreeEntries (GitService.shadowGitRepository os g) w ∧
        isIgnored (activeIgnore (GitService.shadowGitRepository os g) w) name
          = false)) := by
  have hkey : (GitService.shadowGitRepository os g).gitDir = shadowKey os g := rfl
  refine ⟨?_, ?_, ?_, ?_⟩
  · intro hn
    have ha : gitAdd (GitService.shadowGitRepository os g) w =
        .error ("fatal: not a git repository: " ++ shadowKey os g) := by
      rw [gitAdd_of_none (hkey ▸ hn)]
      rw [hkey]
    unfold GitService.createFileSnapshot
    dsimp only
    rw [ha]
  · intro repo hrepo
    have ha := @gitAdd_of_some (GitService.shadowGitRepository os g) w repo
      (hkey ▸ hrepo)
    have hl2 : lookupEntry
        (w.setRepo (GitService.shadowGitRepository os g).gitDir
          ⟨repo.branch, stagedFiles (GitService.shadowGitRepository os g) w,
            repo.commits⟩).repos
        (GitService.shadowGitRepository os g).gitDir =
        some ⟨repo.branch, stagedFiles (GitService.shadowGitRepository os g) w,
          repo.commits⟩ :=
      lookupEntry_setEntry_self _ _ _
    have hcm := @gitCommit_of_some (GitService.shadowGitRepository os g) _ _
      message false hl2
    constructor
    · intro hsame
      rw [if_pos (by exact ⟨rfl, hsame⟩)] at hcm
      unfold GitService.createFileSnapshot
      dsimp only
      rw [ha]
      dsimp only
      rw [hcm]
    · intro hdiff
      rw [if_neg (by
        intro hcon
        exact hdiff hcon.2)] at hcm
      unfold GitService.createFileSnapshot
      dsimp only
      rw [ha]
      dsimp only
      rw [hcm]
      dsimp only
      refine ⟨rfl, ?_⟩
      rw [show (w.setRepo (GitService.shadowGitRepository os g).gitDir
        ⟨repo.branch, stagedFiles (GitService.shadowGitRepository os g) w,
          repo.commits⟩).setRepo (GitService.shadowGitRepository os g).gitDir
        ⟨repo.branch, stagedFiles (GitService.shadowGitRepository os g) w,
          repo.commits ++ [⟨commitName repo.commits.length, message,
            (GitService.shadowGitRepository os g).configSource,
            stagedFiles (GitService.shadowGitRepository os g) w⟩]⟩
        = w.setRepo (shadowKey os g)
        ⟨repo.branch, stagedFiles (GitService.shadowGitRepository os g) w,
          repo.commits ++ [⟨commitName repo.commits.length, message,
            ConfigSource.historyDirConfig,
            stagedFiles (GitService.shadowGitRepository os g) w⟩]⟩
        from by
          rw [setRepo_setRepo]
          rfl]
      exact lookupEntry_setEntry_self _ _ _
  · intro name c hmem
    unfold stagedFiles at hmem
    have := (List.mem_filter.mp hmem).2
    simpa using this
  · intro name c
    unfold stagedFiles
    constructor
    · intro hmem
      refine ⟨(List.mem_filter.mp hmem).1, ?_⟩
      have := (List.mem_filter.mp hmem).2
      simpa using this
    · intro hpair
      exact List.mem_filter.mpr ⟨hpair.1, by simpa using hpair.2⟩

set_option maxRecDepth 200000 in
/-- Witness for C8 at a concrete input: on the initialized example store
(project file `a.txt`, ignored file `debug.log`), the snapshot returns the
new reference `commit-1`, and the ignored file is not staged. -/
theorem C8_snapshot_stages_commits_wraps_witness :
    (GitService.createFileSnapshot envW.os gW "before refactor" wInit).res
      = .ok (commitName 1) ∧
    ∀ c, ("debug.log", c) ∉
      stagedFiles (GitService.shadowGitRepository envW.os gW) wInit := by
  have h := C8_snapshot_stages_commits_wraps envW.os gW wInit "before refactor"
  constructor
  · have hb := (h.2.1
      ⟨"main", [], [⟨"commit-0", "Initial commit", .userGlobal, []⟩]⟩
      (by decide)).2 (by decide)
    exact hb.1
  · intro c hc
    have hfalse := h.2.2.1 "debug.log" c hc
    have htrue : isIgnored
        (activeIgnore (GitService.shadowGitRepository envW.os gW) wInit)
        "debug.log" = true := by decide
    rw [htrue] at hfalse
    exact absurd hfalse (by decide)

set_option maxRecDepth 200000 in
/-- C6 (code bug): the bootstrap `Initial commit` made by
`setupShadowGitRepository` runs on `simpleGit(repoDir)` with **no**
`HOME`/`XDG_CONFIG_HOME` override, so git consults the user's global
configuration for it — the dedicated `.gitconfig` written into the history
directory is not in git's lookup path for that commit.  Only the snapshot
handle (`shadowGitRepository`) points the config lookup at the history
directory.  This contradicts the claim (and the intent stated by the
source's own comment) that every commit uses the dedicated config. -/
theorem C6_bootstrap_commit_consults_user_config :
    lookupEntry (GitService.initializeService envW gW wFresh).world.repos
        (shadowKey envW.os gW) =
      some ⟨"main", [],
        [⟨"commit-0", "Initial commit", ConfigSource.userGlobal, []⟩]⟩ ∧
    (simpleGit (GitService.getHistoryDir envW.os gW)).homeOverride = none ∧
    (simpleGit (GitService.getHistoryDir envW.os gW)).configSource =
      ConfigSource.userGlobal ∧
    (GitService.shadowGitRepository envW.os gW).homeOverride =
      some (GitService.getHistoryDir envW.os gW) ∧
    (GitService.shadowGitRepository envW.os gW).configSource =
      ConfigSource.historyDirConfig := by
  refine ⟨by decide, rfl, rfl, rfl, rfl⟩

theorem write_noop {w : World} {p c : String}
    (hf : lookupEntry w.files p = some (.content c)) : w.writeFile p c = w := by
  unfold World.writeFile
  rw [setEntry_lookup_fix hf]

theorem mkdirp_write_noop {w : World} {d p c : String} (hd : d ∈ w.dirs)
    (hf : lookupEntry w.files p = some (.content c)) :
    (w.mkdirp d).writeFile p c = w := by
  unfold World.mkdirp World.writeFile
  dsimp only
  rw [addDir_mem_fix hd, setEntry_lookup_fix hf]

theorem readFile_of_lookup_content {w : World} {p c : String}
    (hl : lookupEntry w.files p = some (.content c)) :
    w.readFile p = .ok c := by
  unfold World.readFile
  rw [hl]

theorem readFile_of_lookup_none {w : World} {p : String}
    (hl : lookupEntry w.files p = none) : w.readFile p = .error .enoent := by
  unfold World.readFile
  rw [hl]

theorem lookup_of_readFile_ok {w : World} {p c : String}
    (h : w.readFile p = .ok c) :
    lookupEntry w.files p = some (.content c) := by
  unfold World.readFile at h
  cases hl : lookupEntry w.files p with
  | none =>
      rw [hl] at h
      exact absurd h (by simp)
  | some fd =>
      cases fd with
      | content c2 =>
          rw [hl] at h
          injection h with h2
          rw [h2]
      | unreadable e =>
          rw [hl] at h
          exact absurd h (by simp)

theorem lookup_of_readFile_enoent {w : World} {p : String}
    (h : w.readFile p = .error .enoent) : lookupEntry w.files p = none := by
  unfold World.readFile at h
  cases hl : lookupEntry w.files p with
  | none => rfl
  | some fd =>
      cases fd with
      | content c2 =>
          rw [hl] at h
          exact absurd h (by simp)
      | unreadable e =>
          rw [hl] at h
          injection h with h2
          exact absurd h2 (by simp)

theorem outcome_eta {α : Type} (o : Outcome α) (a : Except String α)
    (b : World) (h1 : o.res = a) (h2 : o.world = b) :
    o = ⟨a, b, o.trace⟩ := by
  cases o
  cases h1
  cases h2
  rfl

theorem initialize_stable {env : Env} {g : GitService} {w1 : World}
    {cX : String} (hv : env.gitVersionError = none)
    (hd : GitService.getHistoryDir env.os g ∈ w1.dirs)
    (hcfg : lookupEntry w1.files
      (pathJoin (GitService.getHistoryDir env.os g) ".gitconfig") =
      some (.content gitConfigContent))
    (hrepo : (lookupEntry w1.repos (shadowKey env.os g)).isSome = true)
    (hsh : lookupEntry w1.files
      (pathJoin (GitService.getHistoryDir env.os g) ".gitignore") =
      some (.content cX))
    (hrd : w1.readFile (pathJoin g.projectRoot ".gitignore") = .ok cX ∨
      (w1.readFile (pathJoin g.projectRoot ".gitignore") = .error .enoent ∧
        cX = "")) :
    GitService.initializeService env g w1 =
      ⟨.ok (), w1, (GitService.initializeService env g w1).trace⟩ := by
  have hiu := @initialize_unfold env g w1 hv
  have hb2 : gitCheckIsRepoRoot
      (simpleGit (GitService.getHistoryDir env.os g)) w1 = true := by
    unfold gitCheckIsRepoRoot
    rw [show (simpleGit (GitService.getHistoryDir env.os g)).gitDir
      = shadowKey env.os g from rfl]
    exact hrepo
  have hs2 := @setup_repo_present env.os g w1 hb2
  rw [mkdirp_write_noop hd hcfg] at hs2
  rcases hrd with hrd | ⟨hrd, hce⟩
  · rw [syncIgnore_read_ok hrd] at hs2
    rw [write_noop hsh] at hs2
    exact outcome_eta _ _ _ (hiu.2.2.1 (by rw [hs2])) (by rw [hiu.1, hs2])
  · subst hce
    rw [syncIgnore_read_enoent hrd] at hs2
    rw [write_noop hsh] at hs2
    exact outcome_eta _ _ _ (hiu.2.2.1 (by rw [hs2])) (by rw [hiu.1, hs2])

/-- C4: `initialize` is idempotent — when a first call succeeds and leaves
world `w1`, a second call succeeds and leaves exactly `w1` — and the
repository is (re)initialized with its bootstrap commit only when the
repository-root check reports that no repository exists yet: when one
already exists the repository table is untouched, and when none exists
the store afterwards holds exactly branch `main` with the single empty
bootstrap commit. -/
theorem C4_initialize_idempotent (env : Env) (g : GitService) (w w1 : World)
    (tr : List Eff) (h : GitService.initializeService env g w = ⟨.ok (), w1, tr⟩) :
    (∃ tr2, GitService.initializeService env g w1 = ⟨.ok (), w1, tr2⟩) ∧
    (gitCheckIsRepoRoot (simpleGit (GitService.getHistoryDir env.os g)) w
        = true → w1.repos = w.repos) ∧
    (gitCheckIsRepoRoot (simpleGit (GitService.getHistoryDir env.os g)) w
        = false →
      lookupEntry w1.repos (shadowKey env.os g) =
        some ⟨"main", [],
          [⟨commitName 0, "Initial commit", .userGlobal, []⟩]⟩) := by
  have hv : env.gitVersionError = none := by
    cases he : env.gitVersionError with
    | none => rfl
    | some e =>
        have hva : GitService.verifyGitAvailability env = false := by
          simp [GitService.verifyGitAvailability, he]
        have h3 : GitService.initializeService env g w =
            ⟨.error engineUnavailableMsg, w, []⟩ := by
          simp [GitService.initializeService, hva]
        rw [h3] at h
        have hcon := congrArg Outcome.res h
        exact absurd hcon (by simp)
  have hiu := @initialize_unfold env g w hv
  have hres : (GitService.initializeService env g w).res = .ok () := by rw [h]
  have hworld : (GitService.initializeService env g w).world = w1 := by rw [h]
  have hsres : (GitService.setupShadowGitRepository env.os g w).res
      = .ok () := by
    cases hres2 : (GitService.setupShadowGitRepository env.os g w).res with
    | ok u =>
        cases u
        rfl
    | error e =>
        rw [hiu.2.2.2 e hres2] at hres
        exact absurd hres (by simp)
  have hsworld : (GitService.setupShadowGitRepository env.os g w).world
      = w1 := by
    rw [← hiu.1]
    exact hworld
  cases hb : gitCheckIsRepoRoot
      (simpleGit (GitService.getHistoryDir env.os g)) w with
  | true =>
      have hs := @setup_repo_present env.os g w hb
      cases hr : ((w.mkdirp (GitService.getHistoryDir env.os g)).writeFile
          (pathJoin (GitService.getHistoryDir env.os g) ".gitconfig")
          gitConfigContent).readFile (pathJoin g.projectRoot ".gitignore") with
      | ok c =>
          rw [syncIgnore_read_ok hr] at hs
          rw [hs] at hsworld
          have hw1eq : ((w.mkdirp (GitService.getHistoryDir env.os g)).writeFile
              (pathJoin (GitService.getHistoryDir env.os g) ".gitconfig")
              gitConfigContent).writeFile
              (pathJoin (GitService.getHistoryDir env.os g) ".gitignore") c
              = w1 := hsworld
          have hfiles : w1.files = setEntry
              (setEntry w.files
                (pathJoin (GitService.getHistoryDir env.os g) ".gitconfig")
                (.content gitConfigContent))
              (pathJoin (GitService.getHistoryDir env.os g) ".gitignore")
              (.content c) := by
            rw [← hw1eq]
            rfl
          have hdirs : w1.dirs = addDir w.dirs
              (GitService.getHistoryDir env.os g) := by
            rw [← hw1eq]
            rfl
          have hrw : w1.repos = w.repos := by
            rw [← hw1eq]
            rfl
          have hd1 : GitService.getHistoryDir env.os g ∈ w1.dirs := by
            rw [hdirs]
            exact mem_addDir _ _
          have hcfg1 : lookupEntry w1.files
              (pathJoin (GitService.getHistoryDir env.os g) ".gitconfig") =
              some (.content gitConfigContent) := by
            rw [hfiles, lookupEntry_setEntry_ne _ _
              (config_ne_ignore (GitService.getHistoryDir env.os g)
                (GitService.getHistoryDir env.os g)),
              lookupEntry_setEntry_self]
          have hsh1 : lookupEntry w1.files
              (pathJoin (GitService.getHistoryDir env.os g) ".gitignore") =
              some (.content c) := by
            rw [hfiles, lookupEntry_setEntry_self]
          have hrepo1 : (lookupEntry w1.repos (shadowKey env.os g)).isSome
              = true := by
            rw [hrw]
            unfold gitCheckIsRepoRoot at hb
            rw [show (simpleGit (GitService.getHistoryDir env.os g)).gitDir
              = shadowKey env.os g from rfl] at hb
            exact hb
          have hrd1 : w1.readFile (pathJoin g.projectRoot ".gitignore")
              = .ok c := by
            by_cases hps : pathJoin g.projectRoot ".gitignore" =
                pathJoin (GitService.getHistoryDir env.os g) ".gitignore"
            · apply readFile_of_lookup_content
              rw [hps]
              exact hsh1
            · apply readFile_of_lookup_content
              rw [hfiles, lookupEntry_setEntry_ne _ _ hps]
              exact lookup_of_readFile_ok hr
          refine ⟨⟨(GitService.initializeService env g w1).trace,
            initialize_stable hv hd1 hcfg1 hrepo1 hsh1 (Or.inl hrd1)⟩,
            fun _ => hrw, fun hf => absurd hf (by decide)⟩
      | error e =>
          cases e with
          | enoent =>
              rw [syncIgnore_read_enoent hr] at hs
              rw [hs] at hsworld
              have hw1eq : ((w.mkdirp
                  (GitService.getHistoryDir env.os g)).writeFile
                  (pathJoin (GitService.getHistoryDir env.os g) ".gitconfig")
                  gitConfigContent).writeFile
                  (pathJoin (GitService.getHistoryDir env.os g) ".gitignore")
                  "" = w1 := hsworld
              have hfiles : w1.files = setEntry
                  (setEntry w.files
                    (pathJoin (GitService.getHistoryDir env.os g) ".gitconfig")
                    (.content gitConfigContent))
                  (pathJoin (GitService.getHistoryDir env.os g) ".gitignore")
                  (.content "") := by
                rw [← hw1eq]
                rfl
              have hdirs : w1.dirs = addDir w.dirs
                  (GitService.getHistoryDir env.os g) := by
                rw [← hw1eq]
                rfl
              have hrw : w1.repos = w.repos := by
                rw [← hw1eq]
                rfl
              have hd1 : GitService.getHistoryDir env.os g ∈ w1.dirs := by
                rw [hdirs]
                exact mem_addDir _ _
              have hcfg1 : lookupEntry w1.files
                  (pathJoin (GitService.getHistoryDir env.os g) ".gitconfig") =
                  some (.content gitConfigContent) := by
                rw [hfiles, lookupEntry_setEntry_ne _ _
                  (config_ne_ignore (GitService.getHistoryDir env.os g)
                    (GitService.getHistoryDir env.os g)),
                  lookupEntry_setEntry_self]
              have hsh1 : lookupEntry w1.files
                  (pathJoin (GitService.getHistoryDir env.os g) ".gitignore") =
                  some (.content "") := by
                rw [hfiles, lookupEntry_setEntry_self]
              have hrepo1 : (lookupEntry w1.repos
                  (shadowKey env.os g)).isSome = true := by
                rw [hrw]
                unfold gitCheckIsRepoRoot at hb
                rw [show (simpleGit
                  (GitService.getHistoryDir env.os g)).gitDir
                  = shadowKey env.os g from rfl] at hb
                exact hb
              have hrd1 : w1.readFile (pathJoin g.projectRoot ".gitignore")
                  = .ok "" ∨
                  (w1.readFile (pathJoin g.projectRoot ".gitignore")
                    = .error .enoent ∧ ("" : String) = "") := by
                by_cases hps : pathJoin g.projectRoot ".gitignore" =
                    pathJoin (GitService.getHistoryDir env.os g) ".gitignore"
                · left
                  apply readFile_of_lookup_content
                  rw [hps]
                  exact hsh1
                · right
                  refine ⟨?_, rfl⟩
                  apply readFile_of_lookup_none
                  rw [hfiles, lookupEntry_setEntry_ne _ _ hps]
                  exact lookup_of_readFile_enoent hr
              refine ⟨⟨(GitService.initializeService env g w1).trace,
                initialize_stable hv hd1 hcfg1 hrepo1 hsh1 hrd1⟩,
                fun _ => hrw, fun hf => absurd hf (by decide)⟩
          | other msg =>
              rw [syncIgnore_read_other hr] at hs
              rw [hs] at hsres
              exact absurd hsres (by simp)
  | false =>
      have hn : lookupEntry w.repos (shadowKey env.os g) = none := by
        cases hl : lookupEntry w.repos (shadowKey env.os g) with
        | none => rfl
        | some r =>
            unfold gitCheckIsRepoRoot at hb
            rw [show (simpleGit (GitService.getHistoryDir env.os g)).gitDir
              = shadowKey env.os g from rfl, hl] at hb
            exact absurd hb (by simp)
      have hs := @setup_repo_absent env.os g w hn
      cases hr : (((w.mkdirp (GitService.getHistoryDir env.os g)).writeFile
          (pathJoin (GitService.getHistoryDir env.os g) ".gitconfig")
          gitConfigContent).setRepo (shadowKey env.os g)
            ⟨"main", [],
             [⟨commitName 0, "Initial commit", .userGlobal, []⟩]⟩).readFile
          (pathJoin g.projectRoot ".gitignore") with
      | ok c =>
          rw [syncIgnore_read_ok hr] at hs
          rw [hs] at hsworld
          have hw1eq : ((((w.mkdirp
              (GitService.getHistoryDir env.os g)).writeFile
              (pathJoin (GitService.getHistoryDir env.os g) ".gitconfig")
              gitConfigContent).setRepo (shadowKey env.os g)
                ⟨"main", [],
                 [⟨commitName 0, "Initial commit", .userGlobal,
                   []⟩]⟩)).writeFile
              (pathJoin (GitService.getHistoryDir env.os g) ".gitignore") c
              = w1 := hsworld
          have hfiles : w1.files = setEntry
              (setEntry w.files
                (pathJoin (GitService.getHistoryDir env.os g) ".gitconfig")
                (.content gitConfigContent))
              (pathJoin (GitService.getHistoryDir env.os g) ".gitignore")
              (.content c) := by
            rw [← hw1eq]
            rfl
          have hdirs : w1.dirs = addDir w.dirs
              (GitService.getHistoryDir env.os g) := by
            rw [← hw1eq]
            rfl
          have hrw : w1.repos = setEntry w.repos (shadowKey env.os g)
              ⟨"main", [],
               [⟨commitName 0, "Initial commit", .userGlobal, []⟩]⟩ := by
            rw [← hw1eq]
            rfl
          have hd1 : GitService.getHistoryDir env.os g ∈ w1.dirs := by
            rw [hdirs]
            exact mem_addDir _ _
          have hcfg1 : lookupEntry w1.files
              (pathJoin (GitService.getHistoryDir env.os g) ".gitconfig") =
              some (.content gitConfigContent) := by
            rw [hfiles, lookupEntry_setEntry_ne _ _
              (config_ne_ignore (GitService.getHistoryDir env.os g)
                (GitService.getHistoryDir env.os g)),
              lookupEntry_setEntry_self]
          have hsh1 : lookupEntry w1.files
              (pathJoin (GitService.getHistoryDir env.os g) ".gitignore") =
              some (.content c) := by
            rw [hfiles, lookupEntry_setEntry_self]
          have hrepo1 : (lookupEntry w1.repos (shadowKey env.os g)).isSome
              = true := by
            rw [hrw, lookupEntry_setEntry_self]
            rfl
          have hrd1 : w1.readFile (pathJoin g.projectRoot ".gitignore")
              = .ok c := by
            by_cases hps : pathJoin g.projectRoot ".gitignore" =
                pathJoin (GitService.getHistoryDir env.os g) ".gitignore"
            · apply readFile_of_lookup_content
              rw [hps]
              exact hsh1
            · apply readFile_of_lookup_content
              rw [hfiles, lookupEntry_setEntry_ne _ _ hps]
              exact lookup_of_readFile_ok hr
          refine ⟨⟨(GitService.initializeService env g w1).trace,
            initialize_stable hv hd1 hcfg1 hrepo1 hsh1 (Or.inl hrd1)⟩,
            fun hf => absurd hf (by decide), fun _ => by
              rw [hrw]
              exact lookupEntry_setEntry_self _ _ _⟩
      | error e =>
          cases e with
          | enoent =>
              rw [syncIgnore_read_enoent hr] at hs
              rw [hs] at hsworld
              have hw1eq : ((((w.mkdirp
                  (GitService.getHistoryDir env.os g)).writeFile
                  (pathJoin (GitService.getHistoryDir env.os g) ".gitconfig")
                  gitConfigContent).setRepo (shadowKey env.os g)
                    ⟨"main", [],
                     [⟨commitName 0, "Initial commit", .userGlobal,
                       []⟩]⟩)).writeFile
                  (pathJoin (GitService.getHistoryDir env.os g) ".gitignore")
                  "" = w1 := hsworld
              have hfiles : w1.files = setEntry
                  (setEntry w.files
                    (pathJoin (GitService.getHistoryDir env.os g) ".gitconfig")
                    (.content gitConfigContent))
                  (pathJoin (GitService.getHistoryDir env.os g) ".gitignore")
                  (.content "") := by
                rw [← hw1eq]
                rfl
              have hdirs : w1.dirs = addDir w.dirs
                  (GitService.getHistoryDir env.os g) := by
                rw [← hw1eq]
                rfl
              have hrw : w1.repos = setEntry w.repos (shadowKey env.os g)
                  ⟨"main", [],
                   [⟨commitName 0, "Initial commit", .userGlobal, []⟩]⟩ := by
                rw [← hw1eq]
                rfl
              have hd1 : GitService.getHistoryDir env.os g ∈ w1.dirs := by
                rw [hdirs]
                exact mem_addDir _ _
              have hcfg1 : lookupEntry w1.files
                  (pathJoin (GitService.getHistoryDir env.os g) ".gitconfig") =
                  some (.content gitConfigContent) := by
                rw [hfiles, lookupEntry_setEntry_ne _ _
                  (config_ne_ignore (GitService.getHistoryDir env.os g)
                    (GitService.getHistoryDir env.os g)),
                  lookupEntry_setEntry_self]
              have hsh1 : lookupEntry w1.files
                  (pathJoin (GitService.getHistoryDir env.os g) ".gitignore") =
                  some (.content "") := by
                rw [hfiles, lookupEntry_setEntry_self]
              have hrepo1 : (lookupEntry w1.repos
                  (shadowKey env.os g)).isSome = true := by
                rw [hrw, lookupEntry_setEntry_self]
                rfl
              have hrd1 : w1.readFile (pathJoin g.projectRoot ".gitignore")
                  = .ok "" ∨
                  (w1.readFile (pathJoin g.projectRoot ".gitignore")
                    = .error .enoent ∧ ("" : String) = "") := by
                by_cases hps : pathJoin g.projectRoot ".gitignore" =
                    pathJoin (GitService.getHistoryDir env.os g) ".gitignore"
                · left
                  apply readFile_of_lookup_content
                  rw [hps]
                  exact hsh1
                · right
                  refine ⟨?_, rfl⟩
                  apply readFile_of_lookup_none
                  rw [hfiles, lookupEntry_setEntry_ne _ _ hps]
                  exact lookup_of_readFile_enoent hr
              refine ⟨⟨(GitService.initializeService env g w1).trace,
                initialize_stable hv hd1 hcfg1 hrepo1 hsh1 hrd1⟩,
                fun hf => absurd hf (by decide), fun _ => by
                  rw [hrw]
                  exact lookupEntry_setEntry_self _ _ _⟩
          | other msg =>
              rw [syncIgnore_read_other hr] at hs
              rw [hs] at hsres
              exact absurd hsres (by simp)

set_option maxRecDepth 200000 in
/-- Witness for C4 at a concrete input: a second `initialize` on the world
the first one produced succeeds and leaves that world unchanged. -/
theorem C4_initialize_idempotent_witness :
    ∃ tr2, GitService.initializeService envW gW
        (GitService.initializeService envW gW wFresh).world =
      ⟨.ok (), (GitService.initializeService envW gW wFresh).world, tr2⟩ :=
  (C4_initialize_idempotent envW gW wFresh
    (GitService.initializeService envW gW wFresh).world
    (GitService.initializeService envW gW wFresh).trace
    (outcome_eta _ _ _ (by decide) rfl)).1

set_option maxRecDepth 200000 in
/-- Witness for C9 at a concrete input: on the initialized example store
the restore phase succeeds and the clean phase fails, so the operation
returns the raw clean error and keeps the phase-one world. -/
theorem C9_two_phase_restore_no_rollback_witness :
    GitService.restoreProjectFromSnapshot envCleanFault gW "commit-0" wInit =
      ⟨.error "EACCES: permission denied", wInit,
        [Eff.gitRestore (shadowKey envCleanFault.os gW) "commit-0",
         Eff.gitClean (shadowKey envCleanFault.os gW)]⟩ :=
  ((C9_two_phase_restore_no_rollback envCleanFault gW "commit-0" wInit).2.2
    wInit (by decide)).1 "EACCES: permission denied" (by decide)
